import Mathlib

/-!
# stp2stl: the UTF-8 path validator, the conversion entry point and the command line

A shallow embedding of `src/src/stp2stl.cpp` and of the function `main` of
`src/src/stp2stl_cli.cpp`.

* Bytes (`unsigned char`) are `Fin 256`; where the C++ code compares or masks a
  byte it is first promoted to `int`, which is `Fin.val` here.
* Every read `p[j]` of the validator is checked: a read at or past the end of
  the buffer is the fault `Fault.outOfBounds` (undefined behaviour in C++).
* The `while` loop runs on fuel; running out of fuel is the fault
  `Fault.outOfFuel`, never a verdict.
* The OCCT kernel and the file system are a parameter (`Kernel`): each call is
  a function of the kernel's world that returns or raises. The conversion
  records every kernel call it makes, with its arguments and its outcome
  (`Event`), so that what was called, in which order and on what, can be
  stated.
* The thread-local `g_last_error` is a field of the state; one state is one
  thread. Running out of memory is not modelled.
* A `double` is a value of `Double`; the arithmetic of the conversion is a
  parameter (`FloatOps`), and `ieee754` is binary64 arithmetic with rounding to
  nearest, ties to even.
* The C library function `strtod` is a parameter of the command line model.
-/

namespace Stp2stl

/-! ## Bytes and faults -/

/-- An `unsigned char`. -/
abbrev Byte := Fin 256

/-- What can go wrong in the model of a C++ function besides a C++ exception. -/
inductive Fault where
  /-- A read outside the buffer. -/
  | outOfBounds
  /-- The loop of the model used up its fuel. -/
  | outOfFuel
  deriving DecidableEq, Repr

deriving instance DecidableEq for Except

/-- The read `p[j]`, promoted to `int`. -/
def rd (p : List Byte) (j : Nat) : Except Fault Nat :=
  match p[j]? with
  | some b => .ok b.val
  | none => .error .outOfBounds

/-- The lambda `is_cont` of `is_valid_utf8`:
`j < n && (p[j] & 0xC0) == 0x80`. The read happens only when `j < n`. -/
def is_cont (p : List Byte) (n j : Nat) : Except Fault Bool :=
  if j < n then do
    let b ← rd p j
    pure (b &&& 0xC0 == 0x80)
  else pure false

/-- How one iteration of the `while` loop of `is_valid_utf8` ends. -/
inductive Step where
  /-- The statement `continue`, with the new value of `i`. -/
  | next (i : Nat)
  /-- The statement `return b`. -/
  | ret (b : Bool)
  deriving DecidableEq, Repr

/-- The body of the `while (i < n)` loop of `is_valid_utf8`, run at index `i`
(the caller has checked `i < n`). -/
def is_valid_utf8_body (p : List Byte) (n i : Nat) : Except Fault Step := do
  let c0 ← rd p i
  if c0 ≤ 0x7F then pure (.next (i + 1))
  else if 0xC2 ≤ c0 ∧ c0 ≤ 0xDF then do -- 2-byte
    let k1 ← is_cont p n (i + 1)
    if !k1 then pure (.ret false) else pure (.next (i + 2))
  else if c0 = 0xE0 then do -- 3-byte, no overlong
    if i + 2 ≥ n then pure (.ret false) else do
    let c1 ← rd p (i + 1)
    let c2 ← rd p (i + 2)
    if !(decide (0xA0 ≤ c1 ∧ c1 ≤ 0xBF)) then pure (.ret false)
    else if c2 &&& 0xC0 ≠ 0x80 then pure (.ret false)
    else pure (.next (i + 3))
  else if 0xE1 ≤ c0 ∧ c0 ≤ 0xEC then do -- 3-byte
    let k1 ← is_cont p n (i + 1)
    if !k1 then pure (.ret false) else do
    let k2 ← is_cont p n (i + 2)
    if !k2 then pure (.ret false) else pure (.next (i + 3))
  else if c0 = 0xED then do -- 3-byte, no surrogates
    if i + 2 ≥ n then pure (.ret false) else do
    let c1 ← rd p (i + 1)
    let c2 ← rd p (i + 2)
    if !(decide (0x80 ≤ c1 ∧ c1 ≤ 0x9F)) then pure (.ret false)
    else if c2 &&& 0xC0 ≠ 0x80 then pure (.ret false)
    else pure (.next (i + 3))
  else if 0xEE ≤ c0 ∧ c0 ≤ 0xEF then do -- 3-byte
    let k1 ← is_cont p n (i + 1)
    if !k1 then pure (.ret false) else do
    let k2 ← is_cont p n (i + 2)
    if !k2 then pure (.ret false) else pure (.next (i + 3))
  else if c0 = 0xF0 then do -- 4-byte, no overlong
    if i + 3 ≥ n then pure (.ret false) else do
    let c1 ← rd p (i + 1)
    if !(decide (0x90 ≤ c1 ∧ c1 ≤ 0xBF)) then pure (.ret false) else do
    let k2 ← is_cont p n (i + 2)
    if !k2 then pure (.ret false) else do
    let k3 ← is_cont p n (i + 3)
    if !k3 then pure (.ret false) else pure (.next (i + 4))
  else if 0xF1 ≤ c0 ∧ c0 ≤ 0xF3 then do -- 4-byte
    let k1 ← is_cont p n (i + 1)
    if !k1 then pure (.ret false) else do
    let k2 ← is_cont p n (i + 2)
    if !k2 then pure (.ret false) else do
    let k3 ← is_cont p n (i + 3)
    if !k3 then pure (.ret false) else pure (.next (i + 4))
  else if c0 = 0xF4 then do -- 4-byte, max U+10FFFF
    if i + 3 ≥ n then pure (.ret false) else do
    let c1 ← rd p (i + 1)
    if !(decide (0x80 ≤ c1 ∧ c1 ≤ 0x8F)) then pure (.ret false) else do
    let k2 ← is_cont p n (i + 2)
    if !k2 then pure (.ret false) else do
    let k3 ← is_cont p n (i + 3)
    if !k3 then pure (.ret false) else pure (.next (i + 4))
  else pure (.ret false)

/-- The loop `while (i < n) { ... }  return true;` of `is_valid_utf8`, with
fuel for the number of iterations. -/
def is_valid_utf8_loop (p : List Byte) (n : Nat) : Nat → Nat → Except Fault Bool
  | 0, _ => .error .outOfFuel
  | fuel + 1, i =>
    if i < n then
      match is_valid_utf8_body p n i with
      | .error f => .error f
      | .ok (.ret b) => .ok b
      | .ok (.next i') => is_valid_utf8_loop p n fuel i'
    else .ok true

/-- The function `is_valid_utf8(std::string_view s)`: `p = s.data()`,
`n = s.size()`, `i = 0`. Every iteration that continues advances `i`, so
`n + 1` units of fuel are enough (`is_valid_utf8_eq`). -/
def is_valid_utf8 (s : List Byte) : Except Fault Bool :=
  is_valid_utf8_loop s s.length (s.length + 1) 0

/-! ## Well-formed sequences, as the path contract words them -/

/-- The byte `b` lies in `lo..hi`. -/
def within (b : Byte) (lo hi : Nat) : Prop := lo ≤ b.val ∧ b.val ≤ hi

/-- The eight well-formed byte sequences of the path validator. -/
def Utf8Form : List Byte → Prop
  | [b0] => within b0 0x00 0x7F
  | [b0, b1] => within b0 0xC2 0xDF ∧ within b1 0x80 0xBF
  | [b0, b1, b2] =>
    (b0.val = 0xE0 ∧ within b1 0xA0 0xBF ∧ within b2 0x80 0xBF) ∨
    ((within b0 0xE1 0xEC ∨ within b0 0xEE 0xEF) ∧ within b1 0x80 0xBF ∧ within b2 0x80 0xBF) ∨
    (b0.val = 0xED ∧ within b1 0x80 0x9F ∧ within b2 0x80 0xBF)
  | [b0, b1, b2, b3] =>
    (b0.val = 0xF0 ∧ within b1 0x90 0xBF ∧ within b2 0x80 0xBF ∧ within b3 0x80 0xBF) ∨
    (within b0 0xF1 0xF3 ∧ within b1 0x80 0xBF ∧ within b2 0x80 0xBF ∧ within b3 0x80 0xBF) ∨
    (b0.val = 0xF4 ∧ within b1 0x80 0x8F ∧ within b2 0x80 0xBF ∧ within b3 0x80 0xBF)
  | _ => False

/-- A byte sequence is a concatenation of zero or more well-formed sequences. -/
def Utf8Chunks (s : List Byte) : Prop :=
  ∃ chunks : List (List Byte), (∀ ch ∈ chunks, Utf8Form ch) ∧ s = chunks.flatten

/-- A Unicode scalar value: a code point up to U+10FFFF that is not a surrogate. -/
def IsScalar (c : Nat) : Prop := c ≤ 0x10FFFF ∧ ¬ (0xD800 ≤ c ∧ c ≤ 0xDFFF)

/-- The standard UTF-8 encoding of a code point (RFC 3629, section 3): the
shortest of the four layouts `0xxxxxxx`, `110xxxxx 10xxxxxx`,
`1110xxxx 10xxxxxx 10xxxxxx`, `11110xxx 10xxxxxx 10xxxxxx 10xxxxxx` that holds
the bits of `c`. -/
def utf8Encode (c : Nat) : List Nat :=
  if c < 0x80 then [c]
  else if c < 0x800 then [0xC0 + c / 64, 0x80 + c % 64]
  else if c < 0x10000 then [0xE0 + c / 4096, 0x80 + c / 64 % 64, 0x80 + c % 64]
  else [0xF0 + c / 262144, 0x80 + c / 4096 % 64, 0x80 + c / 64 % 64, 0x80 + c % 64]

/-- The standard UTF-8 encoding of a list of code points. -/
def utf8EncodeAll (cs : List Nat) : List Nat := (cs.map utf8Encode).flatten

/-! ## The validator seen on the unread suffix (used in the proofs) -/

/-- Byte `k` of `t` exists and lies in `lo..hi`. -/
def inRangeAt (t : List Byte) (k lo hi : Nat) : Bool :=
  match t[k]? with
  | some b => decide (lo ≤ b.val ∧ b.val ≤ hi)
  | none => false

/-- One iteration of the validator seen on the unread suffix: the suffix left
after one well-formed sequence, or `none` when the iteration rejects. -/
def stepL : List Byte → Option (List Byte)
  | [] => none
  | c0 :: t =>
    if c0.val ≤ 0x7F then some t
    else if 0xC2 ≤ c0.val ∧ c0.val ≤ 0xDF then
      if inRangeAt t 0 0x80 0xBF then some (t.drop 1) else none
    else if c0.val = 0xE0 then
      if inRangeAt t 0 0xA0 0xBF && inRangeAt t 1 0x80 0xBF then some (t.drop 2) else none
    else if (0xE1 ≤ c0.val ∧ c0.val ≤ 0xEC) ∨ (0xEE ≤ c0.val ∧ c0.val ≤ 0xEF) then
      if inRangeAt t 0 0x80 0xBF && inRangeAt t 1 0x80 0xBF then some (t.drop 2) else none
    else if c0.val = 0xED then
      if inRangeAt t 0 0x80 0x9F && inRangeAt t 1 0x80 0xBF then some (t.drop 2) else none
    else if c0.val = 0xF0 then
      if inRangeAt t 0 0x90 0xBF && inRangeAt t 1 0x80 0xBF && inRangeAt t 2 0x80 0xBF
      then some (t.drop 3) else none
    else if 0xF1 ≤ c0.val ∧ c0.val ≤ 0xF3 then
      if inRangeAt t 0 0x80 0xBF && inRangeAt t 1 0x80 0xBF && inRangeAt t 2 0x80 0xBF
      then some (t.drop 3) else none
    else if c0.val = 0xF4 then
      if inRangeAt t 0 0x80 0x8F && inRangeAt t 1 0x80 0xBF && inRangeAt t 2 0x80 0xBF
      then some (t.drop 3) else none
    else none

/-- The validator as a recursion on the unread suffix; `fuel` bounds the
number of sequences read. -/
def validLF : Nat → List Byte → Bool
  | _, [] => true
  | 0, _ :: _ => false
  | fuel + 1, c0 :: t =>
    match stepL (c0 :: t) with
    | none => false
    | some r => validLF fuel r

/-- The validator as a recursion on the unread suffix. -/
def validL (l : List Byte) : Bool := validLF l.length l

/-- The number of bytes a sequence that starts with the lead byte `L` is
expected to have: 2 for C2-DF, 3 for E0-EF, 4 for F0-F4 (0 for any other
byte). -/
def expectedLength (L : Byte) : Nat :=
  if 0xC2 ≤ L.val ∧ L.val ≤ 0xDF then 2
  else if 0xE0 ≤ L.val ∧ L.val ≤ 0xEF then 3
  else if 0xF0 ≤ L.val ∧ L.val ≤ 0xF4 then 4
  else 0

/-! ## Doubles

A `double` is modelled by the value it denotes. Comparisons are exact in
IEEE 754, so they are defined here; multiplication and division round, and
are parameters of the model (`FloatOps`). -/

/-- A value of the C++ type `double`. -/
inductive Double where
  /-- A finite value (`+0.0` is `fin 0`). -/
  | fin (q : ℚ)
  /-- The value `-0.0`. -/
  | negZero
  /-- Positive infinity. -/
  | posInf
  /-- Negative infinity. -/
  | negInf
  /-- A NaN. -/
  | nan
  deriving DecidableEq

/-- The comparison `a == b` of two doubles: NaN equals nothing, `-0.0 == +0.0`. -/
def Double.eq : Double → Double → Bool
  | .nan, _ => false
  | _, .nan => false
  | .negZero, .negZero => true
  | .negZero, .fin q => decide (q = 0)
  | .fin q, .negZero => decide (q = 0)
  | a, b => decide (a = b)

/-- The comparison `a != b` of two doubles. -/
def Double.ne (a b : Double) : Bool := !(Double.eq a b)

/-- The literal `0.0`. -/
def Double.zero : Double := .fin 0

/-- The literal `1.0`. -/
def Double.one : Double := .fin 1

/-- The literal `0.001`: the binary64 value nearest to 1/1000,
`0x1.0624dd2f1a9fcp-10`. -/
def Double.lit_0_001 : Double := .fin (1152921504606847 / 1152921504606846976)

/-- The literal `20.0`. -/
def Double.lit_20 : Double := .fin 20

/-- The literal `180.0`. -/
def Double.lit_180 : Double := .fin 180

/-- The literal `3.14159265358979323846`: the binary64 value nearest to it,
`0x1.921fb54442d18p+1`. -/
def Double.lit_pi : Double := .fin (884279719003555 / 281474976710656)

/-- The rounding arithmetic of `double` used by the conversion. -/
structure FloatOps where
  /-- The product `a * b`. -/
  mul : Double → Double → Double
  /-- The quotient `a / b`. -/
  div : Double → Double → Double

/-! ## The option record -/

/-- The struct `stp2stl_options` of `stp2stl.h`. -/
structure stp2stl_options where
  linear_deflection : Double
  angular_deflection_deg : Double
  relative_deflection : Int
  binary : Int
  scale : Double
  parallel : Int
  deriving DecidableEq

/-- The contents of a record that has not been initialised; the model never
reads them. -/
instance : Inhabited stp2stl_options :=
  ⟨{ linear_deflection := Double.zero
     angular_deflection_deg := Double.zero
     relative_deflection := 0
     binary := 0
     scale := Double.zero
     parallel := 0 }⟩

/-- The six assignments of `stp2stl_default_options` to the record `*opt`. -/
def stp2stl_default_options_assign (o : stp2stl_options) : stp2stl_options :=
  let o := { o with linear_deflection := Double.lit_0_001 }
  let o := { o with angular_deflection_deg := Double.lit_20 }
  let o := { o with relative_deflection := 1 }
  let o := { o with binary := 1 }
  let o := { o with scale := Double.one }
  { o with parallel := 0 }

/-- The function `stp2stl_default_options(stp2stl_options* opt)`: the argument
is the record `opt` points to (`none` for a null pointer), the result is that
record after the call. -/
def stp2stl_default_options (opt : Option stp2stl_options) : Option stp2stl_options :=
  match opt with
  | none => none
  | some o => some (stp2stl_default_options_assign o)

/-! ## The geometry kernel

The OCCT kernel and the file system are outside the repository. Every call
the conversion makes into them is an operation of `Kernel`: a function of the
world that returns a value or raises, and leaves a new world. The objects the
calls work on (`reader`, `xform`, `mesher`, `writer`) live in the world. -/

/-- A C++ exception in flight. -/
inductive Thrown where
  /-- A `Standard_Failure` (or a subclass); `msg` is what `GetMessageString()`
  returns, `none` for a null pointer. -/
  | Standard_Failure (msg : Option String)
  /-- Any other exception. -/
  | other
  deriving DecidableEq

/-- The enum `IFSelect_ReturnStatus`. -/
inductive IFSelect_ReturnStatus where
  | RetVoid | RetDone | RetError | RetFail | RetStop
  deriving DecidableEq

/-- A `gp_Pnt`: three coordinates. -/
structure gp_Pnt where
  x : Double
  y : Double
  z : Double
  deriving DecidableEq

/-- The types of the kernel: its world, `TopoDS_Shape`, `gp_Trsf` and `FILE*`. -/
structure KTypes where
  World : Type
  Shape : Type
  Trsf : Type
  File : Type

/-- A kernel operation: it returns or raises, and leaves a new world. -/
abbrev KOp (T : KTypes) (α : Type) := T.World → Except Thrown α × T.World

/-- The kernel calls of `convert_impl`. -/
structure Kernel (T : KTypes) where
  /-- The declaration `STEPControl_Reader reader;`. -/
  STEPControl_Reader : KOp T Unit
  /-- The call `reader.ReadFile(path)`. -/
  ReadFile : List Byte → KOp T IFSelect_ReturnStatus
  /-- The call `reader.TransferRoots()`: the number of roots transferred. -/
  TransferRoots : KOp T Int
  /-- The call `reader.OneShape()`. -/
  OneShape : KOp T T.Shape
  /-- The test `shape.IsNull()`. -/
  IsNull : T.Shape → Bool
  /-- The statements `gp_Trsf trsf; trsf.SetScale(p, s);`. -/
  SetScale : gp_Pnt → Double → KOp T T.Trsf
  /-- The declaration `BRepBuilderAPI_Transform xform(shape, trsf, copy);`. -/
  BRepBuilderAPI_Transform : T.Shape → T.Trsf → Bool → KOp T Unit
  /-- The call `xform.Shape()`. -/
  Shape : KOp T T.Shape
  /-- The declaration
  `BRepMesh_IncrementalMesh mesher(shape, linDeflection, isRelative, angDeflection, isInParallel);`. -/
  BRepMesh_IncrementalMesh : T.Shape → Double → Bool → Double → Bool → KOp T Unit
  /-- The statements `StlAPI_Writer writer; writer.ASCIIMode() = ascii;
  writer.Write(shape, path);`, with the boolean `Write` returns. -/
  Write : Bool → T.Shape → List Byte → KOp T Bool
  /-- The call `OSD_OpenFile(path, mode)`: `none` for a null `FILE*`. -/
  OSD_OpenFile : List Byte → String → KOp T (Option T.File)
  /-- The call `std::fclose(f)`; it cannot raise. -/
  fclose : T.File → T.World → T.World

/-- One kernel call made by the conversion, with its arguments and what it
returned or raised. -/
inductive Event (T : KTypes) where
  | STEPControl_Reader (r : Except Thrown Unit)
  | ReadFile (path : List Byte) (r : Except Thrown IFSelect_ReturnStatus)
  | TransferRoots (r : Except Thrown Int)
  | OneShape (r : Except Thrown T.Shape)
  | SetScale (p : gp_Pnt) (s : Double) (r : Except Thrown T.Trsf)
  | BRepBuilderAPI_Transform (shape : T.Shape) (trsf : T.Trsf) (copy : Bool)
      (r : Except Thrown Unit)
  | Shape (r : Except Thrown T.Shape)
  | BRepMesh_IncrementalMesh (shape : T.Shape) (linDeflection : Double) (isRelative : Bool)
      (angDeflection : Double) (isInParallel : Bool) (r : Except Thrown Unit)
  | Write (ascii : Bool) (shape : T.Shape) (path : List Byte) (r : Except Thrown Bool)
  | OSD_OpenFile (path : List Byte) (mode : String) (r : Except Thrown (Option T.File))
  | fclose (f : T.File)

/-- What a result raised, if it raised. -/
def raisedOf {α : Type} : Except Thrown α → Option Thrown
  | .ok _ => none
  | .error t => some t

/-- What the call of an event raised, if it raised. -/
def Event.raised {T : KTypes} : Event T → Option Thrown
  | .STEPControl_Reader r => raisedOf r
  | .ReadFile _ r => raisedOf r
  | .TransferRoots r => raisedOf r
  | .OneShape r => raisedOf r
  | .SetScale _ _ r => raisedOf r
  | .BRepBuilderAPI_Transform _ _ _ r => raisedOf r
  | .Shape r => raisedOf r
  | .BRepMesh_IncrementalMesh _ _ _ _ _ r => raisedOf r
  | .Write _ _ _ r => raisedOf r
  | .OSD_OpenFile _ _ r => raisedOf r
  | .fclose _ => none

/-! ## The conversion -/

/-- The state a call runs in: the kernel's world, the calling thread's
`g_last_error`, and the record of the kernel calls made so far. -/
structure St (T : KTypes) where
  world : T.World
  g_last_error : String
  trace : List (Event T)

/-- A statement of the `try` block: it runs to its end with a value, or an
exception leaves it; either way there is a new state. -/
def Prog (T : KTypes) (α : Type) := St T → Except Thrown α × St T

/-- Sequencing: an exception skips the rest. -/
def Prog.bind {T : KTypes} {α β : Type} (m : Prog T α) (f : α → Prog T β) : Prog T β :=
  fun st =>
    match m st with
    | (.ok a, st') => f a st'
    | (.error t, st') => (.error t, st')

instance {T : KTypes} : Monad (Prog T) where
  pure a := fun st => (.ok a, st)
  bind := Prog.bind

/-- A kernel call: run it on the world and record it. -/
def kcall {T : KTypes} {α : Type} (op : KOp T α) (ev : Except Thrown α → Event T) :
    Prog T α :=
  fun st =>
    let r := op st.world
    (r.1, { st with world := r.2, trace := st.trace ++ [ev r.1] })

/-- The function `set_error(msg)`: `g_last_error = std::move(msg)`. -/
def set_error {T : KTypes} (msg : String) : Prog T Unit :=
  fun st => (.ok (), { st with g_last_error := msg })

/-- The call `std::fclose(f)`. -/
def fclose {T : KTypes} (K : Kernel T) (f : T.File) : Prog T Unit :=
  fun st => (.ok (), { st with world := K.fclose f st.world, trace := st.trace ++ [.fclose f] })

/-- The `try` block of `convert_impl`; the value is the status it returns. -/
def convert_try {T : KTypes} (K : Kernel T) (fp : FloatOps) (step_path stl_path : List Byte)
    (opt : stp2stl_options) : Prog T Int := do
  kcall K.STEPControl_Reader .STEPControl_Reader
  let stat ← kcall (K.ReadFile step_path) (.ReadFile step_path)
  if stat ≠ .RetDone then do
    set_error "STEP read failed: ReadFile returned non-success status"
    pure 10
  else do
  let roots ← kcall K.TransferRoots .TransferRoots
  if roots = 0 then do
    set_error "STEP read failed: TransferRoots failed"
    pure 11
  else do
  let shape ← kcall K.OneShape .OneShape
  if K.IsNull shape then do
    set_error "STEP read failed: resulting shape is null"
    pure 12
  else do
  let shape ←
    if Double.ne opt.scale Double.one then do
      let origin : gp_Pnt := ⟨Double.zero, Double.zero, Double.zero⟩
      let trsf ← kcall (K.SetScale origin opt.scale) (.SetScale origin opt.scale)
      kcall (K.BRepBuilderAPI_Transform shape trsf true)
        (.BRepBuilderAPI_Transform shape trsf true)
      kcall K.Shape .Shape
    else pure shape
  let ang_rad := fp.mul opt.angular_deflection_deg (fp.div Double.lit_pi Double.lit_180)
  kcall
    (K.BRepMesh_IncrementalMesh shape opt.linear_deflection (opt.relative_deflection != 0)
      ang_rad (opt.parallel != 0))
    (.BRepMesh_IncrementalMesh shape opt.linear_deflection (opt.relative_deflection != 0)
      ang_rad (opt.parallel != 0))
  let _ ← kcall (K.Write (opt.binary == 0) shape stl_path) (.Write (opt.binary == 0) shape stl_path)
  let f ← kcall (K.OSD_OpenFile stl_path "rb") (.OSD_OpenFile stl_path "rb")
  match f with
  | some f => do
    fclose K f
    pure 0
  | none => do
    set_error "STL write failed: output file not created"
    pure 20

/-- The function `convert_impl`: the `try` block with its two handlers. -/
def convert_impl {T : KTypes} (K : Kernel T) (fp : FloatOps) (step_path stl_path : List Byte)
    (opt : stp2stl_options) (st : St T) : Int × St T :=
  match convert_try K fp step_path stl_path opt st with
  | (.ok code, st') => (code, st')
  | (.error (.Standard_Failure msg), st') =>
    (100, { st' with g_last_error := "OCCT exception: " ++ (match msg with
                                                            | some m => m
                                                            | none => "Standard_Failure") })
  | (.error .other, st') => (101, { st' with g_last_error := "Unknown exception" })

/-- The conversion `std::string(const char*)`: the bytes before the first NUL
of the buffer the pointer points to (the end of the list stands for the NUL
when the list has none). -/
def c_string (buf : List Byte) : List Byte := buf.takeWhile (fun b => b ≠ 0)

/-- The function `stp2stl_convert_utf8`. A path argument is the buffer its
pointer points to, `none` for a null pointer; `opt_ptr` is the record the
options pointer points to, `none` for a null pointer. The result is the status
returned (or the fault of the validator) and the state after the call. The
record of kernel calls is started afresh, so that after the call it holds the
kernel calls of this call, in order. -/
def stp2stl_convert_utf8 {T : KTypes} (K : Kernel T) (fp : FloatOps)
    (step_path_utf8 stl_path_utf8 : Option (List Byte)) (opt_ptr : Option stp2stl_options)
    (st : St T) : Except Fault Int × St T :=
  -- g_last_error.clear();
  let st : St T := { st with g_last_error := "", trace := [] }
  match step_path_utf8, stl_path_utf8 with
  | none, _ => (.ok 1, { st with g_last_error := "Null parameter" })
  | _, none => (.ok 1, { st with g_last_error := "Null parameter" })
  | some step_buf, some stl_buf =>
    -- stp2stl_options opt; stp2stl_default_options(&opt);
    let opt : stp2stl_options := stp2stl_default_options_assign default
    -- if (opt_ptr) opt = *opt_ptr;
    let opt : stp2stl_options := match opt_ptr with
      | some o => o
      | none => opt
    let step_u8 := c_string step_buf
    let stl_u8 := c_string stl_buf
    if step_u8.isEmpty || stl_u8.isEmpty then
      (.ok 2, { st with g_last_error := "Empty path" })
    else
      match is_valid_utf8 step_u8 with
      | .error f => (.error f, st)
      | .ok false => (.ok 3, { st with g_last_error := "Invalid UTF-8 path" })
      | .ok true =>
        match is_valid_utf8 stl_u8 with
        | .error f => (.error f, st)
        | .ok false => (.ok 3, { st with g_last_error := "Invalid UTF-8 path" })
        | .ok true =>
          let r := convert_impl K fp step_u8 stl_u8 opt st
          (.ok r.1, r.2)

/-- The function `stp2stl_last_error_utf8`, read in a state. -/
def stp2stl_last_error_utf8 {T : KTypes} (st : St T) : String := st.g_last_error

/-! ## Words of the contract -/

/-- A validated path: the string at the pointer is not empty and passes the
validator. -/
def ValidPath (buf : List Byte) : Prop :=
  c_string buf ≠ [] ∧ is_valid_utf8 (c_string buf) = .ok true

instance (buf : List Byte) : Decidable (ValidPath buf) := by
  unfold ValidPath
  infer_instance

/-- The options a call runs with: the caller's record, or the defaults for a
null pointer. -/
def options_of (opt_ptr : Option stp2stl_options) : stp2stl_options :=
  match opt_ptr with
  | some o => o
  | none => stp2stl_default_options_assign default

/-- The call reported a failure through its result: a read status other than
done, no root transferred, a null shape, an output file that cannot be
opened. The boolean of `Write` is not among them. -/
def Event.reportsFailure {T : KTypes} (K : Kernel T) : Event T → Bool
  | .ReadFile _ (.ok stat) => decide (stat ≠ .RetDone)
  | .TransferRoots (.ok n) => decide (n = 0)
  | .OneShape (.ok s) => K.IsNull s
  | .OSD_OpenFile _ _ (.ok none) => true
  | _ => false

/-- The call failed: it raised or it reported a failure. -/
def Event.failed {T : KTypes} (K : Kernel T) (e : Event T) : Bool :=
  e.raised.isSome || e.reportsFailure K

/-- The event is a call of the scale step. -/
def Event.isScaleStep {T : KTypes} : Event T → Bool
  | .SetScale _ _ _ => true
  | .BRepBuilderAPI_Transform _ _ _ _ => true
  | .Shape _ => true
  | _ => false

/-- The event is the call `trsf.SetScale`. -/
def Event.isSetScale {T : KTypes} : Event T → Bool
  | .SetScale _ _ _ => true
  | _ => false

/-- The event is the construction of the `BRepBuilderAPI_Transform`. -/
def Event.isTransform {T : KTypes} : Event T → Bool
  | .BRepBuilderAPI_Transform _ _ _ _ => true
  | _ => false

/-- The event is a call of the output side: the writer, the re-open of the
output file or its close. -/
def Event.isOutput {T : KTypes} : Event T → Bool
  | .Write _ _ _ _ => true
  | .OSD_OpenFile _ _ _ => true
  | .fclose _ => true
  | _ => false

/-! ## A kernel to evaluate the model on -/

/-- The types of the test kernel: the world is the list of the paths of the
files that exist, a shape is a number (0 is the null shape), a transformation
is its scale factor, an open file is its path. -/
abbrev MockTypes : KTypes :=
  { World := List (List Byte), Shape := Nat, Trsf := Double, File := List Byte }

/-- What the test kernel does. -/
structure MockCfg where
  /-- The status `ReadFile` returns. -/
  readStatus : IFSelect_ReturnStatus
  /-- The number of roots `TransferRoots` returns. -/
  roots : Int
  /-- The shape `OneShape` returns. -/
  shape : Nat
  /-- What the mesher raises, if it raises. -/
  meshRaises : Option Thrown
  /-- The boolean `Write` returns. -/
  writeReports : Bool
  /-- Whether `Write` creates the output file. -/
  writeCreates : Bool

/-- The test kernel. The transformed shape is the shape after the loaded one. -/
def mockKernel (c : MockCfg) : Kernel MockTypes where
  STEPControl_Reader := fun w => (.ok (), w)
  ReadFile := fun _ w => (.ok c.readStatus, w)
  TransferRoots := fun w => (.ok c.roots, w)
  OneShape := fun w => (.ok c.shape, w)
  IsNull := fun s => s == 0
  SetScale := fun _ s w => (.ok s, w)
  BRepBuilderAPI_Transform := fun _ _ _ w => (.ok (), w)
  Shape := fun w => (.ok (c.shape + 1), w)
  BRepMesh_IncrementalMesh := fun _ _ _ _ _ w =>
    match c.meshRaises with
    | some t => (.error t, w)
    | none => (.ok (), w)
  Write := fun _ _ path w => (.ok c.writeReports, if c.writeCreates then path :: w else w)
  OSD_OpenFile := fun path _ w => (.ok (if w.contains path then some path else none), w)
  fclose := fun _ w => w

/-- A kernel on which the conversion succeeds. -/
def mockOk : MockCfg :=
  { readStatus := .RetDone, roots := 1, shape := 1, meshRaises := none,
    writeReports := true, writeCreates := true }

/-- A kernel whose writer reports a failed write and writes nothing. -/
def mockStaleOutput : MockCfg := { mockOk with writeReports := false, writeCreates := false }

/-- A kernel whose writer reports success and writes nothing. -/
def mockSilentWriter : MockCfg := { mockOk with writeCreates := false }

/-- An arithmetic to evaluate the model on: exact on finite values. -/
def mockFloatOps : FloatOps where
  mul := fun a b =>
    match a, b with
    | .fin x, .fin y => .fin (x * y)
    | _, _ => .nan
  div := fun a b =>
    match a, b with
    | .fin x, .fin y => if y = 0 then .nan else .fin (x / y)
    | _, _ => .nan

/-- The bytes of `in.stp`, with the terminating NUL. -/
def inPath : List Byte := [0x69, 0x6E, 0x2E, 0x73, 0x74, 0x70, 0x00]

/-- The bytes of `out.stl`, with the terminating NUL. -/
def outPath : List Byte := [0x6F, 0x75, 0x74, 0x2E, 0x73, 0x74, 0x6C, 0x00]

/-- A state to start from: no file exists, an earlier call left a message. -/
def mockSt : St MockTypes := { world := [], g_last_error := "stale", trace := [] }

/-! ## IEEE 754 binary64 arithmetic

The arithmetic the conversion runs on: every operation gives the exact result
rounded to the nearest binary64 value, ties to even (IEEE 754, sections 4.3.1
and 5.4.1). It is the instance of `FloatOps` the numerical statements are
about. -/

/-- The quotient `num / den` rounded to the nearest integer, ties to even. -/
def roundDivEven (num den : Nat) : Nat :=
  let q := num / den
  let r := num % den
  if 2 * r < den then q
  else if den < 2 * r then q + 1
  else if q % 2 = 0 then q else q + 1

/-- The floor of the binary logarithm of `n` (0 for `n < 2`), by halving;
`fuel` bounds the number of halvings. -/
def log2Fuel : Nat → Nat → Nat
  | 0, _ => 0
  | fuel + 1, n => if n < 2 then 0 else log2Fuel fuel (n / 2) + 1

/-- The floor of the binary logarithm of `n`. -/
def log2Floor (n : Nat) : Nat := log2Fuel n n

/-- The exponent of the unit in the last place of the binary64 values around
`n / d` (for `n`, `d` positive): `e - 52` where `2^e ≤ n / d < 2^(e+1)`, and
`-1074` in the subnormal range. -/
def ulpExponent (n d : Nat) : Int :=
  let e0 : Int := (log2Floor n : Int) - (log2Floor d : Int)
  -- `2^(e0-1) < n / d < 2^(e0+1)`; `e` is `e0` when `2^e0 ≤ n / d`, else `e0 - 1`
  let ge : Bool :=
    if 0 ≤ e0 then decide (d * 2 ^ e0.toNat ≤ n) else decide (d ≤ n * 2 ^ (-e0).toNat)
  let e : Int := if ge then e0 else e0 - 1
  max e (-1022) - 52

/-- The positive rational `a` rounded to binary64, with the sign `neg`. -/
def round64 (neg : Bool) (a : ℚ) : Double :=
  let n := a.num.toNat
  let d := a.den
  let x := ulpExponent n d
  -- the significand: `a / 2^x` rounded to an integer
  let m : Nat := if 0 ≤ x then roundDivEven n (d * 2 ^ x.toNat) else roundDivEven (n * 2 ^ (-x).toNat) d
  if m = 0 then (if neg then .negZero else .fin 0)
  else
    let v : ℚ := if 0 ≤ x then ((m * 2 ^ x.toNat : Nat) : ℚ) else (m : ℚ) / ((2 ^ (-x).toNat : Nat) : ℚ)
    if (2 : ℚ) ^ 1024 ≤ v then (if neg then .negInf else .posInf)
    else .fin (if neg then -v else v)

/-- The sign bit of a double. -/
def Double.signBit : Double → Bool
  | .fin q => decide (q < 0)
  | .negZero => true
  | .posInf => false
  | .negInf => true
  | .nan => false

/-- The magnitude of a double: `none` for a NaN, `some none` for an infinity,
`some (some a)` for the finite magnitude `a`. -/
def Double.magnitude : Double → Option (Option ℚ)
  | .fin q => some (some |q|)
  | .negZero => some (some 0)
  | .posInf => some none
  | .negInf => some none
  | .nan => none

/-- The double with the sign `neg` and the exact magnitude `a`, rounded. -/
def Double.ofExact (neg : Bool) (a : ℚ) : Double :=
  if a = 0 then (if neg then .negZero else .fin 0) else round64 neg a

/-- The infinity with the sign `neg`. -/
def Double.infinity (neg : Bool) : Double := if neg then .negInf else .posInf

/-- The product of two doubles (IEEE 754 `multiplication`). -/
def Double.mul (a b : Double) : Double :=
  let neg := xor a.signBit b.signBit
  match a.magnitude, b.magnitude with
  | none, _ => .nan
  | _, none => .nan
  | some none, some none => Double.infinity neg
  | some none, some (some y) => if y = 0 then .nan else Double.infinity neg
  | some (some x), some none => if x = 0 then .nan else Double.infinity neg
  | some (some x), some (some y) => Double.ofExact neg (x * y)

/-- The quotient of two doubles (IEEE 754 `division`). -/
def Double.div (a b : Double) : Double :=
  let neg := xor a.signBit b.signBit
  match a.magnitude, b.magnitude with
  | none, _ => .nan
  | _, none => .nan
  | some none, some none => .nan
  | some none, some (some _) => Double.infinity neg
  | some (some _), some none => Double.ofExact neg 0
  | some (some x), some (some y) =>
    if y = 0 then (if x = 0 then .nan else Double.infinity neg)
    else Double.ofExact neg (x / y)

/-- The arithmetic of IEEE 754 binary64. -/
def ieee754 : FloatOps where
  mul := Double.mul
  div := Double.div

/-- The comparison `a <= b` of two doubles: false when one is a NaN. -/
def Double.le : Double → Double → Bool
  | .nan, _ => false
  | _, .nan => false
  | .negInf, _ => true
  | _, .posInf => true
  | .posInf, _ => false
  | _, .negInf => false
  | .fin x, .fin y => decide (x ≤ y)
  | .fin x, .negZero => decide (x ≤ 0)
  | .negZero, .fin y => decide (0 ≤ y)
  | .negZero, .negZero => true

/-- The comparison `a < b` of two doubles: false when one is a NaN. -/
def Double.lt (a b : Double) : Bool := Double.le a b && !(Double.eq a b)

/-! ## The command line front end

The function `main` of `src/src/stp2stl_cli.cpp` (the build that is not for
Windows). An argument `argv[i]` is the buffer its pointer points to. What is
printed is not modelled. The C library function `strtod` is outside the
repository and is a parameter: for a string it gives the value and the number
of bytes it consumed (`end - s`). -/

/-- The bytes of an ASCII string literal. -/
def ascii (s : String) : List Byte := s.toList.map (fun c => Fin.ofNat c.toNat)

/-- The test `std::strcmp(a, lit) == 0`. -/
def streq (a : List Byte) (lit : String) : Bool := decide (c_string a = ascii lit)

/-- The function `parse_double(s, out)`: the `int` it returns and `*out` after
the call. `s` is the buffer the pointer points to, `none` for a null pointer. -/
def parse_double (strtod : List Byte → Double × Nat) (s : Option (List Byte)) (out : Double) :
    Int × Double :=
  match s with
  | none => (0, out)
  | some buf =>
    let str := c_string buf
    if str.isEmpty then (0, out)
    else
      let r := strtod str
      -- end == s || (end != nullptr && *end != '\0')
      if r.2 = 0 ∨ str.getD r.2 0 ≠ 0 then (0, out)
      else (1, r.1)

/-- The loop `for (int i = 3; i < argc; ++i)` of `main`, on the arguments from
`argv[i]` on: `none` when the loop ends in `return 2`, the option record when
it runs to its end. The test `i + 1 < argc` says that an argument follows, and
`argv[++i]` is that argument. -/
def main_options (strtod : List Byte → Double × Nat) :
    List (List Byte) → stp2stl_options → Option stp2stl_options
  | [], opt => some opt
  | [a], opt =>
    if streq a "--relative" then some { opt with relative_deflection := 1 }
    else if streq a "--absolute" then some { opt with relative_deflection := 0 }
    else if streq a "--binary" then some { opt with binary := 1 }
    else if streq a "--ascii" then some { opt with binary := 0 }
    else if streq a "--parallel" then some { opt with parallel := 1 }
    else none
  | a :: s :: rest, opt =>
    if streq a "--deflection" then
      let r := parse_double strtod (some s) Double.zero
      if r.1 = 0 || Double.le r.2 Double.zero then none
      else main_options strtod rest { opt with linear_deflection := r.2 }
    else if streq a "--angle" then
      let r := parse_double strtod (some s) Double.zero
      if r.1 = 0 || Double.le r.2 Double.zero then none
      else main_options strtod rest { opt with angular_deflection_deg := r.2 }
    else if streq a "--relative" then
      main_options strtod (s :: rest) { opt with relative_deflection := 1 }
    else if streq a "--absolute" then
      main_options strtod (s :: rest) { opt with relative_deflection := 0 }
    else if streq a "--binary" then
      main_options strtod (s :: rest) { opt with binary := 1 }
    else if streq a "--ascii" then
      main_options strtod (s :: rest) { opt with binary := 0 }
    else if streq a "--scale" then
      let r := parse_double strtod (some s) Double.zero
      if r.1 = 0 || Double.le r.2 Double.zero then none
      else main_options strtod rest { opt with scale := r.2 }
    else if streq a "--parallel" then
      main_options strtod (s :: rest) { opt with parallel := 1 }
    else none

/-- What a run of `main` leaves: the exit code, the arguments of the call of
`stp2stl_convert_utf8` when it was made (`none` when it was not), and the
state. -/
structure MainResult (T : KTypes) where
  exit : Except Fault Int
  called : Option (List Byte × List Byte × stp2stl_options)
  st : St T

/-- The function `main(argc, argv)`, with `argc = argv.length`. -/
def main {T : KTypes} (K : Kernel T) (fp : FloatOps) (strtod : List Byte → Double × Nat)
    (argv : List (List Byte)) (st : St T) : MainResult T :=
  if argv.length < 2 then { exit := .ok 2, called := none, st := st }
  else if (argv.drop 1).any
      (fun a => streq a "--help" || streq a "-h" || streq a "--version") then
    { exit := .ok 0, called := none, st := st }
  else
    match argv with
    | _ :: input :: output :: rest =>
      -- stp2stl_options opt; stp2stl_default_options(&opt);
      let opt : stp2stl_options := stp2stl_default_options_assign default
      match main_options strtod rest opt with
      | none => { exit := .ok 2, called := none, st := st }
      | some opt =>
        let r := stp2stl_convert_utf8 K fp (some input) (some output) (some opt) st
        -- if (rc != 0) return rc;  return 0;
        { exit := match r.1 with
                  | .ok rc => if rc ≠ 0 then .ok rc else .ok 0
                  | .error f => .error f
          called := some (input, output, opt)
          st := r.2 }
    | _ => { exit := .ok 2, called := none, st := st }

/-! ## Words of the command line contract -/

/-- The argument is a flag that takes a value. -/
def isValueFlag (a : List Byte) : Bool :=
  streq a "--deflection" || streq a "--angle" || streq a "--scale"

/-- The argument is a flag that takes no value. -/
def isPlainFlag (a : List Byte) : Bool :=
  streq a "--relative" || streq a "--absolute" || streq a "--binary" || streq a "--ascii" ||
    streq a "--parallel"

/-- The argument is `--help`, `-h` or `--version`. -/
def isHelpOrVersion (a : List Byte) : Bool :=
  streq a "--help" || streq a "-h" || streq a "--version"

/-- The C library function `strtod` reads the argument `s` in full: the string
is not empty and the end pointer that `strtod` gives is at the end of the
string (it consumed every byte before the terminating NUL). -/
def parsesInFull (strtod : List Byte → Double × Nat) (s : List Byte) : Prop :=
  c_string s ≠ [] ∧ (strtod (c_string s)).2 = (c_string s).length

/-- The number that `strtod` reads from the argument `s`. -/
def valueOf (strtod : List Byte → Double × Nat) (s : List Byte) : Double :=
  (strtod (c_string s)).1

/-- The value `s` of a flag is accepted: it parses in full as a number, and
that number is not less than or equal to 0. -/
def valueAccepted (strtod : List Byte → Double × Nat) (s : List Byte) : Prop :=
  parsesInFull strtod s ∧ Double.le (valueOf strtod s) Double.zero = false

/-- The arguments after the two paths have an error: an argument where a flag
is expected is not a known flag, a flag that takes a value is the last
argument, or the value of such a flag is not accepted. -/
inductive OptionError (strtod : List Byte → Double × Nat) : List (List Byte) → Prop where
  | unknown (a : List Byte) (rest : List (List Byte)) :
      isValueFlag a = false → isPlainFlag a = false → OptionError strtod (a :: rest)
  | noValue (a : List Byte) : isValueFlag a = true → OptionError strtod [a]
  | badValue (a s : List Byte) (rest : List (List Byte)) :
      isValueFlag a = true → ¬ valueAccepted strtod s → OptionError strtod (a :: s :: rest)
  | afterPlain (a : List Byte) (rest : List (List Byte)) :
      isPlainFlag a = true → OptionError strtod rest → OptionError strtod (a :: rest)
  | afterValue (a s : List Byte) (rest : List (List Byte)) :
      isValueFlag a = true → valueAccepted strtod s → OptionError strtod rest →
      OptionError strtod (a :: s :: rest)

/-- The flags given after the two paths, in their order, a flag that takes a
value together with its value (the argument that follows it). -/
def flagsGiven : List (List Byte) → List (List Byte × Option (List Byte))
  | [] => []
  | [a] => [(a, none)]
  | a :: s :: rest =>
    if isValueFlag a then (a, some s) :: flagsGiven rest
    else (a, none) :: flagsGiven (s :: rest)

/-- The last element of a list, or `d` when the list is empty. -/
def lastOr {α : Type} (d : α) : List α → α
  | [] => d
  | x :: xs => lastOr x xs

/-- The number given with the last occurrence of the value flag `name`, or `d`
when the flag is not given. -/
def lastValue (strtod : List Byte → Double × Nat) (name : String) (d : Double)
    (fs : List (List Byte × Option (List Byte))) : Double :=
  lastOr d (fs.filterMap (fun f =>
    if streq f.1 name then f.2.map (valueOf strtod) else none))

/-- The setting of the last occurrence of one of the two flags `flagOn` (which
sets 1) and `flagOff` (which sets 0), or `d` when neither is given. -/
def lastSwitch (flagOn flagOff : String) (d : Int)
    (fs : List (List Byte × Option (List Byte))) : Int :=
  lastOr d (fs.filterMap (fun f =>
    if streq f.1 flagOn then some 1 else if streq f.1 flagOff then some 0 else none))

/-- The record `d` overridden by the flags `fs`, field by field, the last
occurrence of a flag winning. No flag turns the parallel hint off. -/
def overrideOptions (strtod : List Byte → Double × Nat) (d : stp2stl_options)
    (fs : List (List Byte × Option (List Byte))) : stp2stl_options :=
  { linear_deflection := lastValue strtod "--deflection" d.linear_deflection fs
    angular_deflection_deg := lastValue strtod "--angle" d.angular_deflection_deg fs
    relative_deflection := lastSwitch "--relative" "--absolute" d.relative_deflection fs
    binary := lastSwitch "--binary" "--ascii" d.binary fs
    scale := lastValue strtod "--scale" d.scale fs
    parallel := if fs.any (fun f => streq f.1 "--parallel") then 1 else d.parallel }

/-- The parsed options: the defaults (0.001, 20.0, 1, 1, 1.0, 0) overridden by
the flags given after the two paths. -/
def parsedOptions (strtod : List Byte → Double × Nat) (args : List (List Byte)) :
    stp2stl_options :=
  overrideOptions strtod
    { linear_deflection := Double.lit_0_001
      angular_deflection_deg := Double.lit_20
      relative_deflection := 1
      binary := 1
      scale := Double.one
      parallel := 0 }
    (flagsGiven args)

/-! ## More words and test data -/

/-- The event is a call of the mesher `BRepMesh_IncrementalMesh`. -/
def Event.isMesh {T : KTypes} : Event T → Bool
  | .BRepMesh_IncrementalMesh _ _ _ _ _ _ => true
  | _ => false

/-- A `strtod` to evaluate the model on. It knows four strings: `0.5`, which
it reads in full as 0.5, `nan`, which it reads in full as a NaN (as the C
library does), `-1`, which it reads in full as -1, and `1x`, of which it reads
the first byte, as 1; it consumes nothing of any other string. -/
def mockStrtod (s : List Byte) : Double × Nat :=
  if s = ascii "0.5" then (.fin (1 / 2), 3)
  else if s = ascii "nan" then (.nan, 3)
  else if s = ascii "-1" then (.fin (-1), 2)
  else if s = ascii "1x" then (.fin 1, 1)
  else (Double.zero, 0)

/-- The program name `argv[0]`. -/
def progName : List Byte := ascii "stp2stl"

/-! ## The two option records of a call

The entry point has the parameter `const stp2stl_options* opt_ptr` and a local
record `opt`. Its statements on the two records (lines 196-198 of
`stp2stl.cpp`) are modelled here on a frame that holds both, so that what the
call does to the caller's record can be stated. Every later statement of the
function uses the local record only. -/

/-- The caller's record, which `opt_ptr` points to (`none` for a null
pointer), and the local record `opt` of `stp2stl_convert_utf8`. -/
structure OptFrame where
  caller : Option stp2stl_options
  opt : stp2stl_options
  deriving DecidableEq

/-- The statements `stp2stl_options opt; stp2stl_default_options(&opt);`: the
call of `stp2stl_default_options` is given the address of the local record. -/
def OptFrame.init (m : OptFrame) : OptFrame :=
  match stp2stl_default_options (some m.opt) with
  | some o => { m with opt := o }
  | none => m

/-- The statement `if (opt_ptr) opt = *opt_ptr;`: a read of the caller's
record and an assignment to the local one. -/
def OptFrame.copy (m : OptFrame) : OptFrame :=
  match m.caller with
  | some o => { m with opt := o }
  | none => m

/-- The frame after the three statements, for a call with `opt_ptr`; the
local record starts uninitialised. -/
def stp2stl_convert_utf8_frame (opt_ptr : Option stp2stl_options) : OptFrame :=
  OptFrame.copy (OptFrame.init { caller := opt_ptr, opt := default })

/-! ## Postconditions of the statements of the `try` block (used in the proofs) -/

/-- The postcondition `Q` holds of the result and the final state of `m` run from `st`. -/
def wp {T : KTypes} {α : Type} (m : Prog T α) (Q : Except Thrown α → St T → Prop)
    (st : St T) : Prop :=
  Q (m st).1 (m st).2


/-! ## The validator: the index loop and the suffix recursion agree -/

set_option maxRecDepth 100000 in
theorem mask_cont_iff (b : Byte) :
    (b.val &&& 0xC0 = 0x80) ↔ (0x80 ≤ b.val ∧ b.val ≤ 0xBF) := by
  revert b; decide

theorem rd_drop (p : List Byte) (i : Nat) (c0 : Byte) (t : List Byte)
    (h : p.drop i = c0 :: t) (k : Nat) :
    rd p (i + (k + 1)) = match t[k]? with | some b => .ok b.val | none => .error .outOfBounds := by
  have : p[i + (k + 1)]? = t[k]? := by
    rw [← List.getElem?_drop, h]; simp
  simp [rd, this]

theorem rd_drop_zero (p : List Byte) (i : Nat) (c0 : Byte) (t : List Byte)
    (h : p.drop i = c0 :: t) : rd p i = .ok c0.val := by
  have : p[i]? = some c0 := by
    have := List.getElem?_drop p i 0
    rw [h] at this; simpa using this.symm
  simp [rd, this]

theorem length_of_drop (p : List Byte) (i : Nat) (c0 : Byte) (t : List Byte)
    (h : p.drop i = c0 :: t) : p.length = i + (t.length + 1) := by
  have := congrArg List.length h
  simp at this
  omega

theorem is_cont_drop (p : List Byte) (i : Nat) (c0 : Byte) (t : List Byte)
    (h : p.drop i = c0 :: t) (k : Nat) :
    is_cont p p.length (i + (k + 1)) = .ok (inRangeAt t k 0x80 0xBF) := by
  have hl := length_of_drop p i c0 t h
  unfold is_cont
  rw [rd_drop p i c0 t h k]
  by_cases hk : k < t.length
  · have h1 : i + (k + 1) < p.length := by omega
    have h2 : t[k]? = some t[k] := List.getElem?_eq_getElem hk
    simp only [h1, if_true, h2, inRangeAt]
    have := mask_cont_iff t[k]
    by_cases hc : (t[k].val &&& 0xC0 = 0x80)
    · have h3 := this.mp hc
      simp [hc, h3, bind, Except.bind, pure, Except.pure]
    · have h3 : ¬ (0x80 ≤ t[k].val ∧ t[k].val ≤ 0xBF) := fun h => hc (this.mpr h)
      simp [hc, h3, bind, Except.bind, pure, Except.pure]
  · have h1 : ¬ (i + (k + 1) < p.length) := by omega
    have h2 : t[k]? = none := List.getElem?_eq_none (by omega)
    simp [h1, h2, inRangeAt, pure, Except.pure]


theorem inRangeAt_lt (t : List Byte) (k lo hi : Nat) (h : inRangeAt t k lo hi = true) :
    k < t.length := by
  unfold inRangeAt at h
  by_contra hk
  have h2 : t[k]? = none := List.getElem?_eq_none (by omega)
  simp [h2] at h

set_option maxHeartbeats 2000000 in
theorem body_eq_stepL (p : List Byte) (i : Nat) (c0 : Byte) (t : List Byte)
    (h : p.drop i = c0 :: t) :
    is_valid_utf8_body p p.length i =
      .ok (match stepL (c0 :: t) with
           | some r => .next (p.length - r.length)
           | none => .ret false) := by
  have hl := length_of_drop p i c0 t h
  have r0 := rd_drop_zero p i c0 t h
  have r1 : rd p (i + 1) = _ := rd_drop p i c0 t h 0
  have r2 : rd p (i + 2) = _ := rd_drop p i c0 t h 1
  have k1 : is_cont p p.length (i + 1) = _ := is_cont_drop p i c0 t h 0
  have k2 : is_cont p p.length (i + 2) = _ := is_cont_drop p i c0 t h 1
  have k3 : is_cont p p.length (i + 3) = _ := is_cont_drop p i c0 t h 2
  unfold is_valid_utf8_body stepL
  rw [r0]
  simp only [bind, Except.bind, pure, Except.pure, k1, k2, k3, r1, r2]
  clear r0 r1 r2 k1 k2 k3 h
  have hb := c0.isLt
  generalize c0.val = v at hb ⊢
  have hc : v ≤ 127 ∨ (128 ≤ v ∧ v ≤ 193) ∨ (194 ≤ v ∧ v ≤ 223) ∨ v = 224 ∨
      (225 ≤ v ∧ v ≤ 236) ∨ v = 237 ∨ (238 ≤ v ∧ v ≤ 239) ∨ v = 240 ∨
      (241 ≤ v ∧ v ≤ 243) ∨ v = 244 ∨ 245 ≤ v := by omega
  rcases hc with hc | hc | hc | hc | hc | hc | hc | hc | hc | hc | hc
  all_goals simp (disch := omega) only [if_pos, if_neg]
  all_goals rcases t with _ | ⟨c1, _ | ⟨c2, _ | ⟨c3, t3⟩⟩⟩
  all_goals simp [inRangeAt, hl, mask_cont_iff]
  all_goals try omega
  all_goals split_ifs
  all_goals first | (simp; done) | (simp; omega)


theorem stepL_suffix (l r : List Byte) (h : stepL l = some r) :
    r.length < l.length ∧ r = l.drop (l.length - r.length) := by
  rcases l with _ | ⟨c0, t⟩
  · simp [stepL] at h
  · have key : ∀ k, k ≤ t.length → r = t.drop k →
        r.length < (c0 :: t).length ∧ r = (c0 :: t).drop ((c0 :: t).length - r.length) := by
      intro k hk hr
      subst hr
      have e : (c0 :: t).length - (List.drop k t).length = k + 1 := by
        simp [List.length_drop]; omega
      rw [e]
      simp [List.length_drop]; omega
    have i0 := inRangeAt_lt t 0
    have i1 := inRangeAt_lt t 1
    have i2 := inRangeAt_lt t 2
    simp only [stepL] at h
    split_ifs at h <;> simp only [Option.some.injEq, reduceCtorEq] at h
    · exact key 0 (by omega) (by simpa using h.symm)
    all_goals simp only [Bool.and_eq_true] at *
    · exact key 1 (by have := i0 _ _ ‹_›; omega) h.symm
    · exact key 2 (by have := i1 _ _ (And.right ‹_›); omega) h.symm
    · exact key 2 (by have := i1 _ _ (And.right ‹_›); omega) h.symm
    · exact key 2 (by have := i1 _ _ (And.right ‹_›); omega) h.symm
    · exact key 3 (by have := i2 _ _ (And.right ‹_›); omega) h.symm
    · exact key 3 (by have := i2 _ _ (And.right ‹_›); omega) h.symm
    · exact key 3 (by have := i2 _ _ (And.right ‹_›); omega) h.symm

theorem validLF_fuel : ∀ (f g : Nat) (l : List Byte), l.length ≤ f → l.length ≤ g →
    validLF f l = validLF g l := by
  intro f
  induction f with
  | zero =>
    intro g l hf _
    have : l = [] := List.length_eq_zero.mp (by omega)
    subst this
    cases g <;> rfl
  | succ f ih =>
    intro g l hf hg
    rcases l with _ | ⟨c0, t⟩
    · cases g <;> rfl
    · rcases g with _ | g
      · simp at hg
      · simp only [validLF]
        cases hs : stepL (c0 :: t) with
        | none => rfl
        | some r =>
          have h1 := (stepL_suffix _ _ hs).1
          simp only [List.length_cons] at h1 hf hg
          exact ih g r (by omega) (by omega)

theorem validL_nil : validL [] = true := rfl

theorem validL_cons (c0 : Byte) (t : List Byte) :
    validL (c0 :: t) = match stepL (c0 :: t) with
      | none => false
      | some r => validL r := by
  simp only [validL, List.length_cons, validLF]
  cases hs : stepL (c0 :: t) with
  | none => rfl
  | some r =>
    have h1 := (stepL_suffix _ _ hs).1
    simp only [List.length_cons] at h1
    exact validLF_fuel _ _ r (by omega) (le_refl _)

theorem is_valid_utf8_loop_eq (p : List Byte) :
    ∀ (fuel i : Nat), i ≤ p.length → p.length - i < fuel →
      is_valid_utf8_loop p p.length fuel i = .ok (validL (p.drop i)) := by
  intro fuel
  induction fuel with
  | zero => intro i _ h; omega
  | succ fuel ih =>
    intro i hi hf
    unfold is_valid_utf8_loop
    by_cases hlt : i < p.length
    · have hd : p.drop i = p[i] :: p.drop (i + 1) := List.drop_eq_getElem_cons hlt
      rw [if_pos hlt, body_eq_stepL p i _ _ hd, hd, validL_cons]
      cases hs : stepL (p[i] :: p.drop (i + 1)) with
      | none => rfl
      | some r =>
        obtain ⟨h1, h2⟩ := stepL_suffix _ _ hs
        have hlen : (p[i] :: p.drop (i + 1)).length = p.length - i := by
          rw [← hd, List.length_drop]
        rw [hlen] at h1 h2
        have hr : p.drop (p.length - r.length) = r := by
          rw [← hd, List.drop_drop] at h2
          have e : i + (p.length - i - r.length) = p.length - r.length := by omega
          rw [e] at h2
          exact h2.symm
        simp only
        rw [ih (p.length - r.length) (by omega) (by omega), hr]
    · have : p.drop i = [] := List.drop_eq_nil_of_le (by omega)
      rw [if_neg hlt, this, validL_nil]

/-- The validator returns on every input, and its verdict is the suffix recursion. -/
theorem is_valid_utf8_eq (s : List Byte) : is_valid_utf8 s = .ok (validL s) := by
  have := is_valid_utf8_loop_eq s (s.length + 1) 0 (Nat.zero_le _) (by omega)
  simpa [is_valid_utf8] using this


theorem stepL_form (ch r : List Byte) (h : Utf8Form ch) : stepL (ch ++ r) = some r := by
  rcases ch with _ | ⟨b0, _ | ⟨b1, _ | ⟨b2, _ | ⟨b3, _ | ⟨b4, t⟩⟩⟩⟩⟩
  all_goals simp only [Utf8Form, within] at h
  · simp only [List.singleton_append, stepL]
    rw [if_pos (by omega)]
  · simp only [List.cons_append, List.nil_append, stepL, inRangeAt]
    simp (disch := omega) only [if_pos, if_neg]
    simp; omega
  · simp only [List.cons_append, List.nil_append, stepL, inRangeAt]
    rcases h with h | h | h
    all_goals simp (disch := omega) only [if_pos, if_neg]
    all_goals simp
    all_goals omega
  · simp only [List.cons_append, List.nil_append, stepL, inRangeAt]
    rcases h with h | h | h
    all_goals simp (disch := omega) only [if_pos, if_neg]
    all_goals simp
    all_goals omega

theorem form_ne_nil (ch : List Byte) (h : Utf8Form ch) : ch ≠ [] := by
  rintro rfl
  simp [Utf8Form] at h

set_option maxHeartbeats 2000000 in
theorem stepL_some (l r : List Byte) (h : stepL l = some r) :
    ∃ ch, l = ch ++ r ∧ Utf8Form ch := by
  rcases l with _ | ⟨c0, t⟩
  · simp [stepL] at h
  unfold stepL at h
  have hc : c0.val ≤ 127 ∨ (128 ≤ c0.val ∧ c0.val ≤ 193) ∨ (194 ≤ c0.val ∧ c0.val ≤ 223) ∨
      c0.val = 224 ∨ (225 ≤ c0.val ∧ c0.val ≤ 236) ∨ c0.val = 237 ∨
      (238 ≤ c0.val ∧ c0.val ≤ 239) ∨ c0.val = 240 ∨
      (241 ≤ c0.val ∧ c0.val ≤ 243) ∨ c0.val = 244 ∨ 245 ≤ c0.val := by omega
  rcases hc with hc | hc | hc | hc | hc | hc | hc | hc | hc | hc | hc
  all_goals simp (disch := omega) only [if_pos, if_neg] at h
  all_goals rcases t with _ | ⟨c1, _ | ⟨c2, _ | ⟨c3, t3⟩⟩⟩
  all_goals simp [inRangeAt] at h
  all_goals first
    | (refine ⟨[c0], ?_, ?_⟩
       · simp [← h]
       · simp only [Utf8Form, within]; omega)
    | (refine ⟨[c0, c1], ?_, ?_⟩
       · simp [← h.2]
       · simp only [Utf8Form, within]; omega)
    | (refine ⟨[c0, c1, c2], ?_, ?_⟩
       · simp [← h.2]
       · simp only [Utf8Form, within]; omega)
    | (refine ⟨[c0, c1, c2, c3], ?_, ?_⟩
       · simp [← h.2]
       · simp only [Utf8Form, within]; omega)


/-! ## The validator accepts exactly the concatenations of well-formed sequences -/

theorem validL_append_form (ch r : List Byte) (h : Utf8Form ch) :
    validL (ch ++ r) = validL r := by
  have hs := stepL_form ch r h
  rcases ch with _ | ⟨b0, t⟩
  · exact absurd rfl (form_ne_nil _ h)
  · rw [List.cons_append] at hs ⊢
    rw [validL_cons, hs]

theorem validL_of_chunks (chunks : List (List Byte)) (h : ∀ ch ∈ chunks, Utf8Form ch) :
    validL chunks.flatten = true := by
  induction chunks with
  | nil => rfl
  | cons ch cs ih =>
    rw [List.flatten_cons, validL_append_form ch _ (h ch (List.mem_cons_self _ _))]
    exact ih (fun c hc => h c (List.mem_cons_of_mem _ hc))

theorem chunks_of_validL : ∀ (n : Nat) (l : List Byte), l.length ≤ n →
    validL l = true → Utf8Chunks l := by
  intro n
  induction n with
  | zero =>
    intro l hl _
    have : l = [] := List.length_eq_zero.mp (by omega)
    exact ⟨[], by simp, by simp [this]⟩
  | succ n ih =>
    intro l hl hv
    rcases l with _ | ⟨c0, t⟩
    · exact ⟨[], by simp, by simp⟩
    · rw [validL_cons] at hv
      cases hs : stepL (c0 :: t) with
      | none => rw [hs] at hv; exact absurd hv (by simp)
      | some r =>
        rw [hs] at hv
        have h1 := (stepL_suffix _ _ hs).1
        obtain ⟨ch, hch, hform⟩ := stepL_some _ _ hs
        obtain ⟨cs, hcs, hr⟩ := ih r (by simp only [List.length_cons] at h1 hl; omega) hv
        refine ⟨ch :: cs, ?_, ?_⟩
        · intro c hc
          rcases List.mem_cons.mp hc with rfl | hc
          · exact hform
          · exact hcs c hc
        · rw [List.flatten_cons, ← hr, hch]

theorem validL_iff_chunks (l : List Byte) : validL l = true ↔ Utf8Chunks l :=
  ⟨chunks_of_validL l.length l (le_refl _), fun ⟨cs, h, e⟩ => e ▸ validL_of_chunks cs h⟩

/-- C1: `is_valid_utf8 s` returns `true` exactly when `s` is a concatenation of
zero or more of the eight well-formed sequences (1-byte 00-7F; C2-DF + 80-BF;
E0 + A0-BF + 80-BF; E1-EC or EE-EF + two of 80-BF; ED + 80-9F + 80-BF;
F0 + 90-BF + two of 80-BF; F1-F3 + three of 80-BF; F4 + 80-8F + two of 80-BF),
and returns `false` on every other input. -/
theorem is_valid_utf8_iff_chunks (s : List Byte) :
    (is_valid_utf8 s = .ok true ↔ Utf8Chunks s) ∧
    (is_valid_utf8 s = .ok false ↔ ¬ Utf8Chunks s) := by
  rw [is_valid_utf8_eq, ← validL_iff_chunks]
  cases validL s <;> simp

/-! ## The well-formed sequences are the encodings of the scalar values -/

/-- The encoder on the examples of RFC 3629 and Wikipedia: `$`, the pound sign,
the euro sign, U+10348. -/
theorem utf8Encode_examples :
    utf8Encode 0x24 = [0x24] ∧ utf8Encode 0xA3 = [0xC2, 0xA3] ∧
    utf8Encode 0x20AC = [0xE2, 0x82, 0xAC] ∧ utf8Encode 0x10348 = [0xF0, 0x90, 0x8D, 0x88] := by
  decide

/-- The validator on a few inputs: `A` + e-acute; a lone `E1`; an encoded
surrogate; U+10FFFF followed by a NUL; the first code point past U+10FFFF; an
overlong NUL. -/
theorem is_valid_utf8_examples :
    is_valid_utf8 [0x41, 0xC3, 0xA9] = .ok true ∧
    is_valid_utf8 [0xE1] = .ok false ∧
    is_valid_utf8 [0xED, 0xA0, 0x80] = .ok false ∧
    is_valid_utf8 [0xF4, 0x8F, 0xBF, 0xBF, 0x00] = .ok true ∧
    is_valid_utf8 [0xF4, 0x90, 0x80, 0x80] = .ok false ∧
    is_valid_utf8 [0xC0, 0x80] = .ok false := by
  decide

theorem form_of_encode (c : Nat) (hc : IsScalar c) :
    ∃ ch : List Byte, Utf8Form ch ∧ ch.map Fin.val = utf8Encode c := by
  obtain ⟨h1, h2⟩ := hc
  unfold utf8Encode
  by_cases a1 : c < 0x80
  · refine ⟨[⟨c, by omega⟩], ?_, ?_⟩
    · simp only [Utf8Form, within]; omega
    · simp [a1]
  by_cases a2 : c < 0x800
  · refine ⟨[⟨0xC0 + c / 64, by omega⟩, ⟨0x80 + c % 64, by omega⟩], ?_, ?_⟩
    · simp only [Utf8Form, within]; omega
    · simp [a1, a2]
  by_cases a3 : c < 0x10000
  · refine ⟨[⟨0xE0 + c / 4096, by omega⟩, ⟨0x80 + c / 64 % 64, by omega⟩,
      ⟨0x80 + c % 64, by omega⟩], ?_, ?_⟩
    · simp only [Utf8Form, within]; omega
    · simp [a1, a2, a3]
  · refine ⟨[⟨0xF0 + c / 262144, by omega⟩, ⟨0x80 + c / 4096 % 64, by omega⟩,
      ⟨0x80 + c / 64 % 64, by omega⟩, ⟨0x80 + c % 64, by omega⟩], ?_, ?_⟩
    · simp only [Utf8Form, within]; omega
    · simp [a1, a2, a3]

theorem encode_of_form (ch : List Byte) (h : Utf8Form ch) :
    ∃ c, IsScalar c ∧ utf8Encode c = ch.map Fin.val := by
  rcases ch with _ | ⟨b0, _ | ⟨b1, _ | ⟨b2, _ | ⟨b3, _ | ⟨b4, t⟩⟩⟩⟩⟩
  all_goals simp only [Utf8Form, within] at h
  · refine ⟨b0.val, ⟨by omega, by omega⟩, ?_⟩
    simp only [utf8Encode, List.map]
    rw [if_pos (by omega)]
  · refine ⟨(b0.val - 0xC0) * 64 + (b1.val - 0x80), ⟨by omega, by omega⟩, ?_⟩
    simp only [utf8Encode, List.map]
    rw [if_neg (by omega), if_pos (by omega)]
    simp only [List.cons.injEq, and_true]
    omega
  · refine ⟨(b0.val - 0xE0) * 4096 + (b1.val - 0x80) * 64 + (b2.val - 0x80),
      ⟨by omega, by omega⟩, ?_⟩
    simp only [utf8Encode, List.map]
    rw [if_neg (by omega), if_neg (by omega), if_pos (by omega)]
    simp only [List.cons.injEq, and_true]
    omega
  · refine ⟨(b0.val - 0xF0) * 262144 + (b1.val - 0x80) * 4096 + (b2.val - 0x80) * 64 +
      (b3.val - 0x80), ⟨by omega, by omega⟩, ?_⟩
    simp only [utf8Encode, List.map]
    rw [if_neg (by omega), if_neg (by omega), if_neg (by omega)]
    simp only [List.cons.injEq, and_true]
    omega

theorem chunks_iff_encoding (s : List Byte) :
    Utf8Chunks s ↔ ∃ cs : List Nat, (∀ c ∈ cs, IsScalar c) ∧ s.map Fin.val = utf8EncodeAll cs := by
  constructor
  · rintro ⟨chunks, hch, rfl⟩
    induction chunks with
    | nil => exact ⟨[], by simp, by simp [utf8EncodeAll]⟩
    | cons ch rest ih =>
      obtain ⟨cs, hcs, he⟩ := ih (fun c hc => hch c (List.mem_cons_of_mem _ hc))
      obtain ⟨c, hc, hce⟩ := encode_of_form ch (hch ch (List.mem_cons_self _ _))
      refine ⟨c :: cs, ?_, ?_⟩
      · intro x hx
        rcases List.mem_cons.mp hx with rfl | hx
        · exact hc
        · exact hcs x hx
      · simp only [utf8EncodeAll, List.map_cons, List.flatten_cons, List.map_append] at he ⊢
        rw [he, hce]
  · rintro ⟨cs, hcs, he⟩
    induction cs generalizing s with
    | nil =>
      have : s = [] := by simpa [utf8EncodeAll] using he
      exact ⟨[], by simp, by simp [this]⟩
    | cons c rest ih =>
      simp only [utf8EncodeAll, List.map_cons, List.flatten_cons] at he
      obtain ⟨l1, l2, rfl, h1, h2⟩ := List.map_eq_append_iff.mp he
      obtain ⟨chunks, hch, rfl⟩ := ih l2 (fun x hx => hcs x (List.mem_cons_of_mem _ hx)) h2
      obtain ⟨ch, hform, hce⟩ := form_of_encode c (hcs c (List.mem_cons_self _ _))
      have : l1 = ch := by
        apply List.map_injective_iff.mpr Fin.val_injective
        rw [h1, hce]
      subst this
      refine ⟨l1 :: chunks, ?_, by simp⟩
      intro x hx
      rcases List.mem_cons.mp hx with rfl | hx
      · exact hform
      · exact hch x hx

/-- C2: `is_valid_utf8 s` returns `true` exactly when `s` is the standard
(shortest-form) UTF-8 encoding of a finite list of Unicode scalar values
(code points up to U+10FFFF, surrogates excluded), and `false` otherwise; so it
accepts the encoding of every such list, U+0000 included. -/
theorem is_valid_utf8_iff_encoding (s : List Byte) :
    (is_valid_utf8 s = .ok true ↔
      ∃ cs : List Nat, (∀ c ∈ cs, IsScalar c) ∧ s.map Fin.val = utf8EncodeAll cs) ∧
    (is_valid_utf8 s = .ok false ↔
      ¬ ∃ cs : List Nat, (∀ c ∈ cs, IsScalar c) ∧ s.map Fin.val = utf8EncodeAll cs) := by
  rw [← chunks_iff_encoding, is_valid_utf8_eq, ← validL_iff_chunks]
  cases validL s <;> simp

/-! ## The conversion: rules for postconditions -/

theorem wp_pure {T : KTypes} {α : Type} (a : α) (Q : Except Thrown α → St T → Prop)
    (st : St T) : wp (pure a : Prog T α) Q st ↔ Q (.ok a) st := Iff.rfl

theorem wp_bind {T : KTypes} {α β : Type} (m : Prog T α) (f : α → Prog T β)
    (Q : Except Thrown β → St T → Prop) (st : St T) :
    wp (m >>= f) Q st ↔
      wp m (fun r st' => match r with
        | .ok a => wp (f a) Q st'
        | .error t => Q (.error t) st') st := by
  show Q (Prog.bind m f st).1 (Prog.bind m f st).2 ↔ _
  unfold wp Prog.bind
  rcases m st with ⟨_ | _, _⟩ <;> exact Iff.rfl

theorem wp_kcall {T : KTypes} {α : Type} (op : KOp T α) (ev : Except Thrown α → Event T)
    (Q : Except Thrown α → St T → Prop) (st : St T) :
    wp (kcall op ev) Q st ↔
      (∀ a w, op st.world = (.ok a, w) →
        Q (.ok a) { st with world := w, trace := st.trace ++ [ev (.ok a)] }) ∧
      (∀ m w, op st.world = (.error (.Standard_Failure (some m)), w) →
        Q (.error (.Standard_Failure (some m)))
          { st with world := w
                    trace := st.trace ++ [ev (.error (.Standard_Failure (some m)))] }) ∧
      (∀ w, op st.world = (.error (.Standard_Failure none), w) →
        Q (.error (.Standard_Failure none))
          { st with world := w, trace := st.trace ++ [ev (.error (.Standard_Failure none))] }) ∧
      (∀ w, op st.world = (.error .other, w) →
        Q (.error .other) { st with world := w, trace := st.trace ++ [ev (.error .other)] }) := by
  unfold wp kcall
  rcases h : op st.world with ⟨r, w⟩
  cases r with
  | ok c => simp
  | error t =>
    cases t with
    | other => simp
    | Standard_Failure m => cases m <;> simp

theorem wp_set_error {T : KTypes} (msg : String) (Q : Except Thrown Unit → St T → Prop)
    (st : St T) : wp (set_error msg) Q st ↔ Q (.ok ()) { st with g_last_error := msg } := Iff.rfl

theorem wp_fclose {T : KTypes} (K : Kernel T) (x : T.File) (Q : Except Thrown Unit → St T → Prop)
    (st : St T) :
    wp (fclose K x) Q st ↔
      Q (.ok ()) { st with world := K.fclose x st.world, trace := st.trace ++ [.fclose x] } :=
  Iff.rfl

theorem wp_ite {T : KTypes} {α : Type} (c : Prop) [Decidable c] (m1 m2 : Prog T α)
    (Q : Except Thrown α → St T → Prop) (st : St T) :
    wp (if c then m1 else m2) Q st ↔ (c → wp m1 Q st) ∧ (¬ c → wp m2 Q st) := by
  by_cases h : c <;> simp [h]

theorem wp_file {T : KTypes} {α : Type} (o : Option T.File) (m1 : T.File → Prog T α)
    (m2 : Prog T α) (Q : Except Thrown α → St T → Prop) (st : St T) :
    wp (match o with
        | some x => m1 x
        | none => m2) Q st ↔
      (∀ x, o = some x → wp (m1 x) Q st) ∧ (o = none → wp m2 Q st) := by
  cases o <;> simp

/-- What the two handlers of `convert_impl` make of the outcome of the `try`
block. -/
theorem convert_impl_wp {T : KTypes} (K : Kernel T) (fp : FloatOps) (p q : List Byte)
    (opt : stp2stl_options) (st : St T) (P : Int × St T → Prop) :
    P (convert_impl K fp p q opt st) ↔
      wp (convert_try K fp p q opt) (fun r st' =>
        match r with
        | .ok code => P (code, st')
        | .error (.Standard_Failure (some m)) =>
          P (100, { st' with g_last_error := "OCCT exception: " ++ m })
        | .error (.Standard_Failure none) =>
          P (100, { st' with g_last_error := "OCCT exception: " ++ "Standard_Failure" })
        | .error .other => P (101, { st' with g_last_error := "Unknown exception" })) st := by
  unfold convert_impl wp
  rcases convert_try K fp p q opt st with ⟨r, s⟩
  cases r with
  | ok c => simp
  | error t =>
    cases t with
    | other => simp
    | Standard_Failure m => cases m <;> simp

theorem Double.ne_one_iff (a : Double) : Double.ne a Double.one = true ↔ a ≠ Double.one := by
  cases a <;> simp [Double.ne, Double.eq, Double.one]

theorem convert_impl_code {T : KTypes} (K : Kernel T) (fp : FloatOps) (p q : List Byte)
    (opt : stp2stl_options) (st : St T) :
    (convert_impl K fp p q opt st).1 ∈ [0, 10, 11, 12, 20, 100, 101] := by
  rw [convert_impl_wp K fp p q opt st (fun r => r.1 ∈ [0, 10, 11, 12, 20, 100, 101])]
  simp only [convert_try, wp_bind, wp_kcall, wp_ite, wp_pure, wp_set_error, wp_fclose, wp_file]
  simp

/-! ## The entry point: the four ways a call can go -/

theorem c_string_ne_nil_iff (x : List Byte) : (c_string x).isEmpty = false ↔ c_string x ≠ [] := by
  cases c_string x <;> simp

theorem convert_utf8_null {T : KTypes} (K : Kernel T) (fp : FloatOps)
    (a b : Option (List Byte)) (o : Option stp2stl_options) (st : St T)
    (h : a = none ∨ b = none) :
    stp2stl_convert_utf8 K fp a b o st =
      (.ok 1, { world := st.world, g_last_error := "Null parameter", trace := [] }) := by
  rcases h with rfl | rfl
  · cases b <;> rfl
  · cases a <;> rfl

theorem convert_utf8_empty {T : KTypes} (K : Kernel T) (fp : FloatOps)
    (x y : List Byte) (o : Option stp2stl_options) (st : St T)
    (h : c_string x = [] ∨ c_string y = []) :
    stp2stl_convert_utf8 K fp (some x) (some y) o st =
      (.ok 2, { world := st.world, g_last_error := "Empty path", trace := [] }) := by
  have : ((c_string x).isEmpty || (c_string y).isEmpty) = true := by
    rcases h with h | h <;> simp [h]
  simp only [stp2stl_convert_utf8, this, if_true]

theorem convert_utf8_invalid {T : KTypes} (K : Kernel T) (fp : FloatOps)
    (x y : List Byte) (o : Option stp2stl_options) (st : St T)
    (hx : c_string x ≠ []) (hy : c_string y ≠ [])
    (h : is_valid_utf8 (c_string x) = .ok false ∨ is_valid_utf8 (c_string y) = .ok false) :
    stp2stl_convert_utf8 K fp (some x) (some y) o st =
      (.ok 3, { world := st.world, g_last_error := "Invalid UTF-8 path", trace := [] }) := by
  have e : ((c_string x).isEmpty || (c_string y).isEmpty) = false := by
    simp [(c_string_ne_nil_iff x).mpr hx, (c_string_ne_nil_iff y).mpr hy]
  simp only [stp2stl_convert_utf8, e]
  rw [is_valid_utf8_eq, is_valid_utf8_eq] at h
  rw [is_valid_utf8_eq, is_valid_utf8_eq]
  cases hvx : validL (c_string x) <;> cases hvy : validL (c_string y) <;> simp_all

theorem convert_utf8_valid {T : KTypes} (K : Kernel T) (fp : FloatOps)
    (x y : List Byte) (o : Option stp2stl_options) (st : St T)
    (hx : ValidPath x) (hy : ValidPath y) :
    stp2stl_convert_utf8 K fp (some x) (some y) o st =
      (.ok (convert_impl K fp (c_string x) (c_string y) (options_of o)
              { world := st.world, g_last_error := "", trace := [] }).1,
       (convert_impl K fp (c_string x) (c_string y) (options_of o)
              { world := st.world, g_last_error := "", trace := [] }).2) := by
  have e : ((c_string x).isEmpty || (c_string y).isEmpty) = false := by
    simp [(c_string_ne_nil_iff x).mpr hx.1, (c_string_ne_nil_iff y).mpr hy.1]
  simp only [stp2stl_convert_utf8, e, hx.2, hy.2]
  cases o <;> rfl

/-- Every call goes one of four ways. -/
theorem convert_utf8_cases (a b : Option (List Byte)) :
    (a = none ∨ b = none) ∨
    (∃ x y, a = some x ∧ b = some y ∧ (c_string x = [] ∨ c_string y = [])) ∨
    (∃ x y, a = some x ∧ b = some y ∧ c_string x ≠ [] ∧ c_string y ≠ [] ∧
      (is_valid_utf8 (c_string x) = .ok false ∨ is_valid_utf8 (c_string y) = .ok false)) ∨
    (∃ x y, a = some x ∧ b = some y ∧ ValidPath x ∧ ValidPath y) := by
  rcases a with _ | x
  · exact Or.inl (Or.inl rfl)
  rcases b with _ | y
  · exact Or.inl (Or.inr rfl)
  by_cases hx : c_string x = []
  · exact Or.inr (Or.inl ⟨x, y, rfl, rfl, Or.inl hx⟩)
  by_cases hy : c_string y = []
  · exact Or.inr (Or.inl ⟨x, y, rfl, rfl, Or.inr hy⟩)
  cases hvx : validL (c_string x)
  · exact Or.inr (Or.inr (Or.inl ⟨x, y, rfl, rfl, hx, hy, Or.inl (by rw [is_valid_utf8_eq, hvx])⟩))
  cases hvy : validL (c_string y)
  · exact Or.inr (Or.inr (Or.inl ⟨x, y, rfl, rfl, hx, hy, Or.inr (by rw [is_valid_utf8_eq, hvy])⟩))
  · exact Or.inr (Or.inr (Or.inr ⟨x, y, rfl, rfl, ⟨hx, by rw [is_valid_utf8_eq, hvx]⟩,
      ⟨hy, by rw [is_valid_utf8_eq, hvy]⟩⟩))

/-- A property of a call on validated paths is a postcondition of the `try`
block, read through the two handlers. -/
theorem convert_utf8_wp {T : KTypes} (K : Kernel T) (fp : FloatOps)
    (x y : List Byte) (o : Option stp2stl_options) (st : St T)
    (hx : ValidPath x) (hy : ValidPath y) (P : Except Fault Int × St T → Prop) :
    P (stp2stl_convert_utf8 K fp (some x) (some y) o st) ↔
      wp (convert_try K fp (c_string x) (c_string y) (options_of o)) (fun r st' =>
        match r with
        | .ok code => P (.ok code, st')
        | .error (.Standard_Failure (some m)) =>
          P (.ok 100, { st' with g_last_error := "OCCT exception: " ++ m })
        | .error (.Standard_Failure none) =>
          P (.ok 100, { st' with g_last_error := "OCCT exception: " ++ "Standard_Failure" })
        | .error .other => P (.ok 101, { st' with g_last_error := "Unknown exception" }))
        { world := st.world, g_last_error := "", trace := [] } := by
  rw [convert_utf8_valid K fp x y o st hx hy]
  exact convert_impl_wp K fp (c_string x) (c_string y) (options_of o) _ (fun r => P (.ok r.1, r.2))

/-- The same rule, in the shape of an eliminator. -/
@[elab_as_elim]
theorem convert_utf8_elim {T : KTypes} {motive : Except Fault Int × St T → Prop}
    (K : Kernel T) (fp : FloatOps) (x y : List Byte) (o : Option stp2stl_options) (st : St T)
    (hx : ValidPath x) (hy : ValidPath y)
    (r : Except Fault Int × St T) (hr : r = stp2stl_convert_utf8 K fp (some x) (some y) o st)
    (h : wp (convert_try K fp (c_string x) (c_string y) (options_of o)) (fun r st' =>
        match r with
        | .ok code => motive (.ok code, st')
        | .error (.Standard_Failure (some m)) =>
          motive (.ok 100, { st' with g_last_error := "OCCT exception: " ++ m })
        | .error (.Standard_Failure none) =>
          motive (.ok 100, { st' with g_last_error := "OCCT exception: " ++ "Standard_Failure" })
        | .error .other => motive (.ok 101, { st' with g_last_error := "Unknown exception" }))
        { world := st.world, g_last_error := "", trace := [] }) :
    motive r := by
  subst hr
  exact (convert_utf8_wp K fp x y o st hx hy motive).mpr h


/-! ## The entry point: path checks, the error string, the status codes -/

theorem occt_message_ne_empty (m : String) : "OCCT exception: " ++ m ≠ "" := by
  intro h
  have h1 : ("OCCT exception: " ++ m).length = 0 := by rw [h]; rfl
  rw [String.length_append] at h1
  have h2 : "OCCT exception: ".length = 16 := by decide
  omega

/-- C3: `stp2stl_convert_utf8` returns 1 exactly when a path pointer is null,
2 exactly when both are non-null and one of the strings is empty, 3 exactly
when both are non-null and non-empty and the validator rejects one of them; in
every other case the result is the result of `convert_impl` on the two
strings, and its status is none of 1, 2, 3. -/
theorem convert_utf8_path_checks {T : KTypes} (K : Kernel T) (fp : FloatOps)
    (a b : Option (List Byte)) (o : Option stp2stl_options) (st : St T) :
    ((stp2stl_convert_utf8 K fp a b o st).1 = .ok 1 ↔ (a = none ∨ b = none)) ∧
    ((stp2stl_convert_utf8 K fp a b o st).1 = .ok 2 ↔
      ∃ x y, a = some x ∧ b = some y ∧ (c_string x = [] ∨ c_string y = [])) ∧
    ((stp2stl_convert_utf8 K fp a b o st).1 = .ok 3 ↔
      ∃ x y, a = some x ∧ b = some y ∧ c_string x ≠ [] ∧ c_string y ≠ [] ∧
        (is_valid_utf8 (c_string x) = .ok false ∨ is_valid_utf8 (c_string y) = .ok false)) ∧
    (∀ x y, a = some x → b = some y → c_string x ≠ [] → c_string y ≠ [] →
      is_valid_utf8 (c_string x) ≠ .ok false → is_valid_utf8 (c_string y) ≠ .ok false →
      stp2stl_convert_utf8 K fp a b o st =
        (.ok (convert_impl K fp (c_string x) (c_string y) (options_of o)
                { world := st.world, g_last_error := "", trace := [] }).1,
         (convert_impl K fp (c_string x) (c_string y) (options_of o)
                { world := st.world, g_last_error := "", trace := [] }).2) ∧
      (stp2stl_convert_utf8 K fp a b o st).1 ≠ .ok 1 ∧
      (stp2stl_convert_utf8 K fp a b o st).1 ≠ .ok 2 ∧
      (stp2stl_convert_utf8 K fp a b o st).1 ≠ .ok 3) := by
  rcases convert_utf8_cases a b with h | ⟨x, y, rfl, rfl, h⟩ | ⟨x, y, rfl, rfl, hx, hy, h⟩ |
    ⟨x, y, rfl, rfl, hx, hy⟩
  · rw [convert_utf8_null K fp a b o st h]
    refine ⟨by simp [h], ?_, ?_, ?_⟩
    · rcases h with rfl | rfl <;> simp
    · rcases h with rfl | rfl <;> simp
    · rcases h with rfl | rfl <;> simp
  · rw [convert_utf8_empty K fp x y o st h]
    refine ⟨by simp, by simp [h], ?_, ?_⟩
    · simp only [Except.ok.injEq, Option.some.injEq]
      constructor
      · intro h'; omega
      · rintro ⟨x', y', rfl, rfl, hx', hy', _⟩
        rcases h with h | h
        · exact absurd h hx'
        · exact absurd h hy'
    · intro x' y' ex ey hx' hy'
      cases ex; cases ey
      rcases h with h | h
      · exact absurd h hx'
      · exact absurd h hy'
  · rw [convert_utf8_invalid K fp x y o st hx hy h]
    refine ⟨by simp, ?_, ?_, ?_⟩
    · simp only [Except.ok.injEq, Option.some.injEq]
      constructor
      · intro h'; omega
      · rintro ⟨x', y', rfl, rfl, h'⟩
        rcases h' with h' | h'
        · exact absurd h' hx
        · exact absurd h' hy
    · simp only [Option.some.injEq, true_iff]
      exact ⟨x, y, rfl, rfl, hx, hy, h⟩
    · intro x' y' ex ey _ _ vx vy
      cases ex; cases ey
      rcases h with h | h
      · exact absurd h vx
      · exact absurd h vy
  · have hc := convert_impl_code K fp (c_string x) (c_string y) (options_of o)
      { world := st.world, g_last_error := "", trace := [] }
    rw [convert_utf8_valid K fp x y o st hx hy]
    simp only [List.mem_cons, List.mem_singleton, List.not_mem_nil, or_false] at hc
    have n1 : (convert_impl K fp (c_string x) (c_string y) (options_of o)
      { world := st.world, g_last_error := "", trace := [] }).1 ≠ 1 := by omega
    have n2 : (convert_impl K fp (c_string x) (c_string y) (options_of o)
      { world := st.world, g_last_error := "", trace := [] }).1 ≠ 2 := by omega
    have n3 : (convert_impl K fp (c_string x) (c_string y) (options_of o)
      { world := st.world, g_last_error := "", trace := [] }).1 ≠ 3 := by omega
    refine ⟨by simp [n1], ?_, ?_, ?_⟩
    · simp only [Except.ok.injEq, n2, Option.some.injEq, false_iff]
      rintro ⟨x', y', rfl, rfl, h'⟩
      rcases h' with h' | h'
      · exact hx.1 h'
      · exact hy.1 h'
    · simp only [Except.ok.injEq, n3, Option.some.injEq, false_iff]
      rintro ⟨x', y', rfl, rfl, _, _, h'⟩
      rcases h' with h' | h'
      · rw [hx.2] at h'; cases h'
      · rw [hy.2] at h'; cases h'
    · intro x' y' ex ey _ _ _ _
      cases ex; cases ey
      exact ⟨rfl, by simp [n1], by simp [n2], by simp [n3]⟩

/-- C4: when `stp2stl_convert_utf8` returns 1, 2 or 3, the call has made no
kernel call (no file read, root transfer, transform, tessellation, write or
re-open of the output) and the kernel's world is as it was. -/
theorem no_kernel_call_on_path_error {T : KTypes} (K : Kernel T) (fp : FloatOps)
    (a b : Option (List Byte)) (o : Option stp2stl_options) (st : St T)
    (h : (stp2stl_convert_utf8 K fp a b o st).1 = .ok 1 ∨
         (stp2stl_convert_utf8 K fp a b o st).1 = .ok 2 ∨
         (stp2stl_convert_utf8 K fp a b o st).1 = .ok 3) :
    (stp2stl_convert_utf8 K fp a b o st).2.trace = [] ∧
    (stp2stl_convert_utf8 K fp a b o st).2.world = st.world := by
  rcases convert_utf8_cases a b with h' | ⟨x, y, rfl, rfl, h'⟩ | ⟨x, y, rfl, rfl, hx, hy, h'⟩ |
    ⟨x, y, rfl, rfl, hx, hy⟩
  · rw [convert_utf8_null K fp a b o st h']; exact ⟨rfl, rfl⟩
  · rw [convert_utf8_empty K fp x y o st h']; exact ⟨rfl, rfl⟩
  · rw [convert_utf8_invalid K fp x y o st hx hy h']; exact ⟨rfl, rfl⟩
  · have hc := convert_impl_code K fp (c_string x) (c_string y) (options_of o)
      { world := st.world, g_last_error := "", trace := [] }
    rw [convert_utf8_valid K fp x y o st hx hy] at h
    simp only [List.mem_cons, List.mem_singleton, List.not_mem_nil, or_false] at hc
    simp only [Except.ok.injEq] at h
    omega

/-- A call with an output path that is not UTF-8 (the overlong `C0 80`) on a
world with one file: status 3, no kernel call, the world untouched. -/
theorem no_kernel_call_on_path_error_witness :
    ((stp2stl_convert_utf8 (mockKernel mockOk) mockFloatOps (some inPath) (some [0xC0, 0x80, 0x00])
        none { mockSt with world := [c_string inPath] }).1 = .ok 1 ∨
     (stp2stl_convert_utf8 (mockKernel mockOk) mockFloatOps (some inPath) (some [0xC0, 0x80, 0x00])
        none { mockSt with world := [c_string inPath] }).1 = .ok 2 ∨
     (stp2stl_convert_utf8 (mockKernel mockOk) mockFloatOps (some inPath) (some [0xC0, 0x80, 0x00])
        none { mockSt with world := [c_string inPath] }).1 = .ok 3) ∧
    ((stp2stl_convert_utf8 (mockKernel mockOk) mockFloatOps (some inPath) (some [0xC0, 0x80, 0x00])
        none { mockSt with world := [c_string inPath] }).2.trace = [] ∧
     (stp2stl_convert_utf8 (mockKernel mockOk) mockFloatOps (some inPath) (some [0xC0, 0x80, 0x00])
        none { mockSt with world := [c_string inPath] }).2.world = [c_string inPath]) :=
  ⟨Or.inr (Or.inr rfl),
   no_kernel_call_on_path_error (mockKernel mockOk) mockFloatOps (some inPath)
     (some [0xC0, 0x80, 0x00]) none { mockSt with world := [c_string inPath] }
     (Or.inr (Or.inr rfl))⟩

/-- C5: whatever `g_last_error` held before the call and whatever the kernel
does, after the call `stp2stl_last_error_utf8()` is the empty string exactly
when the call returned 0. -/
theorem last_error_empty_iff_success {T : KTypes} (K : Kernel T) (fp : FloatOps)
    (a b : Option (List Byte)) (o : Option stp2stl_options) (st : St T) :
    stp2stl_last_error_utf8 (stp2stl_convert_utf8 K fp a b o st).2 = "" ↔
      (stp2stl_convert_utf8 K fp a b o st).1 = .ok 0 := by
  rcases convert_utf8_cases a b with h | ⟨x, y, rfl, rfl, h⟩ | ⟨x, y, rfl, rfl, hx, hy, h⟩ |
    ⟨x, y, rfl, rfl, hx, hy⟩
  · rw [convert_utf8_null K fp a b o st h]; simp [stp2stl_last_error_utf8]
  · rw [convert_utf8_empty K fp x y o st h]; simp [stp2stl_last_error_utf8]
  · rw [convert_utf8_invalid K fp x y o st hx hy h]; simp [stp2stl_last_error_utf8]
  · rw [convert_utf8_wp K fp x y o st hx hy
      (fun r => stp2stl_last_error_utf8 r.2 = "" ↔ r.1 = .ok 0)]
    simp only [convert_try, wp_bind, wp_kcall, wp_ite, wp_pure, wp_set_error, wp_fclose, wp_file]
    simp [stp2stl_last_error_utf8, occt_message_ne_empty]

set_option maxHeartbeats 4000000 in
/-- C9: `stp2stl_convert_utf8` always returns one of the ten status codes; if a
kernel call of the call raised a `Standard_Failure` the status is 100 and the
message is `OCCT exception: ` followed by the failure's message, or by
`Standard_Failure` when it has none; if a kernel call raised anything else the
status is 101. -/
theorem status_code_and_exceptions {T : KTypes} (K : Kernel T) (fp : FloatOps)
    (a b : Option (List Byte)) (o : Option stp2stl_options) (st : St T) :
    (∃ c ∈ [0, 1, 2, 3, 10, 11, 12, 20, 100, 101],
      (stp2stl_convert_utf8 K fp a b o st).1 = .ok c) ∧
    (∀ e ∈ (stp2stl_convert_utf8 K fp a b o st).2.trace, ∀ m,
      e.raised = some (.Standard_Failure (some m)) →
        (stp2stl_convert_utf8 K fp a b o st).1 = .ok 100 ∧
        stp2stl_last_error_utf8 (stp2stl_convert_utf8 K fp a b o st).2 =
          "OCCT exception: " ++ m) ∧
    (∀ e ∈ (stp2stl_convert_utf8 K fp a b o st).2.trace,
      e.raised = some (.Standard_Failure none) →
        (stp2stl_convert_utf8 K fp a b o st).1 = .ok 100 ∧
        stp2stl_last_error_utf8 (stp2stl_convert_utf8 K fp a b o st).2 =
          "OCCT exception: Standard_Failure") ∧
    (∀ e ∈ (stp2stl_convert_utf8 K fp a b o st).2.trace,
      e.raised = some .other →
        (stp2stl_convert_utf8 K fp a b o st).1 = .ok 101 ∧
        stp2stl_last_error_utf8 (stp2stl_convert_utf8 K fp a b o st).2 = "Unknown exception") := by
  rcases convert_utf8_cases a b with h | ⟨x, y, rfl, rfl, h⟩ | ⟨x, y, rfl, rfl, hx, hy, h⟩ |
    ⟨x, y, rfl, rfl, hx, hy⟩
  · rw [convert_utf8_null K fp a b o st h]; simp
  · rw [convert_utf8_empty K fp x y o st h]; simp
  · rw [convert_utf8_invalid K fp x y o st hx hy h]; simp
  · show (fun r : Except Fault Int × St T =>
        (∃ c ∈ [0, 1, 2, 3, 10, 11, 12, 20, 100, 101], r.1 = .ok c) ∧
        (∀ e ∈ r.2.trace, ∀ m, e.raised = some (.Standard_Failure (some m)) →
          r.1 = .ok 100 ∧ stp2stl_last_error_utf8 r.2 = "OCCT exception: " ++ m) ∧
        (∀ e ∈ r.2.trace, e.raised = some (.Standard_Failure none) →
          r.1 = .ok 100 ∧ stp2stl_last_error_utf8 r.2 = "OCCT exception: Standard_Failure") ∧
        (∀ e ∈ r.2.trace, e.raised = some .other →
          r.1 = .ok 101 ∧ stp2stl_last_error_utf8 r.2 = "Unknown exception"))
      (stp2stl_convert_utf8 K fp (some x) (some y) o st)
    generalize hP : (fun r : Except Fault Int × St T => _) = P
    rw [convert_utf8_wp K fp x y o st hx hy P]
    simp only [convert_try, wp_bind, wp_kcall, wp_ite, wp_pure, wp_set_error, wp_fclose, wp_file]
    repeat' (first | intro _ | apply And.intro)
    all_goals subst hP
    all_goals simp [stp2stl_last_error_utf8, Event.raised, raisedOf]

/-! ## The pipeline: hard stops, load failures, the verify step, the scale step -/

/-- C6, as stated, fails: the writer reports that the write failed (`Write`
returns `false`), an older file is at the output path, and the call goes on
to the verify step and returns 0. -/
theorem write_report_ignored :
    stp2stl_convert_utf8 (mockKernel mockStaleOutput) mockFloatOps (some inPath) (some outPath)
        none { mockSt with world := [c_string outPath] } =
      (.ok 0,
       { world := [c_string outPath]
         g_last_error := ""
         trace :=
           [.STEPControl_Reader (.ok ()),
            .ReadFile (c_string inPath) (.ok .RetDone),
            .TransferRoots (.ok 1),
            .OneShape (.ok 1),
            .BRepMesh_IncrementalMesh 1 Double.lit_0_001 true
              (mockFloatOps.mul Double.lit_20 (mockFloatOps.div Double.lit_pi Double.lit_180))
              false (.ok ()),
            .Write false 1 (c_string outPath) (.ok false),
            .OSD_OpenFile (c_string outPath) "rb" (.ok (some (c_string outPath))),
            .fclose (c_string outPath)] }) := by
  rfl

set_option maxHeartbeats 4000000 in
/-- C6, amended: on validated paths a kernel call that raises, a read status
other than done, a failed root transfer, a null shape and an output file that
cannot be re-opened are hard stops: such a call is the last kernel call of the
conversion, and the status is non-zero exactly when there is one. The boolean
returned by the writer is not consulted: after a write that returns, whatever
it reports, the output file is re-opened, and the re-open is the kernel call
that follows the write. The re-open decides the status: it is 0 exactly when
the re-open gives a file (the close of that file is then the last kernel
call) and 20 exactly when it gives none. -/
theorem failures_are_hard_stops {T : KTypes} (K : Kernel T) (fp : FloatOps)
    (x y : List Byte) (o : Option stp2stl_options) (st : St T)
    (hx : ValidPath x) (hy : ValidPath y) :
    (∀ e ∈ (stp2stl_convert_utf8 K fp (some x) (some y) o st).2.trace.dropLast,
      e.failed K = false) ∧
    ((∃ e ∈ (stp2stl_convert_utf8 K fp (some x) (some y) o st).2.trace, e.failed K = true) ↔
      (stp2stl_convert_utf8 K fp (some x) (some y) o st).1 ≠ .ok 0) ∧
    (∀ asc sh p b,
      Event.Write asc sh p (.ok b) ∈ (stp2stl_convert_utf8 K fp (some x) (some y) o st).2.trace →
      ∃ r, Event.OSD_OpenFile (c_string y) "rb" r ∈
        (stp2stl_convert_utf8 K fp (some x) (some y) o st).2.trace) ∧
    (∀ r, Event.OSD_OpenFile (c_string y) "rb" r ∈
        (stp2stl_convert_utf8 K fp (some x) (some y) o st).2.trace →
      ((stp2stl_convert_utf8 K fp (some x) (some y) o st).1 = .ok 0 ↔ ∃ f, r = .ok (some f)) ∧
      ((stp2stl_convert_utf8 K fp (some x) (some y) o st).1 = .ok 20 ↔ r = .ok none)) ∧
    (∀ asc sh p b r,
      Event.Write asc sh p (.ok b) ∈ (stp2stl_convert_utf8 K fp (some x) (some y) o st).2.trace →
      Event.OSD_OpenFile (c_string y) "rb" r ∈
        (stp2stl_convert_utf8 K fp (some x) (some y) o st).2.trace →
      (∀ f, r = .ok (some f) →
        (stp2stl_convert_utf8 K fp (some x) (some y) o st).2.trace.getLast? =
          some (.fclose f) ∧
        (stp2stl_convert_utf8 K fp (some x) (some y) o st).2.trace.dropLast.getLast? =
          some (.OSD_OpenFile (c_string y) "rb" r) ∧
        (stp2stl_convert_utf8 K fp (some x) (some y) o st).2.trace.dropLast.dropLast.getLast? =
          some (.Write asc sh p (.ok b))) ∧
      ((∀ f, r ≠ .ok (some f)) →
        (stp2stl_convert_utf8 K fp (some x) (some y) o st).2.trace.getLast? =
          some (.OSD_OpenFile (c_string y) "rb" r) ∧
        (stp2stl_convert_utf8 K fp (some x) (some y) o st).2.trace.dropLast.getLast? =
          some (.Write asc sh p (.ok b)))) := by
  show (fun r : Except Fault Int × St T =>
      (∀ e ∈ r.2.trace.dropLast, e.failed K = false) ∧
      ((∃ e ∈ r.2.trace, e.failed K = true) ↔ r.1 ≠ .ok 0) ∧
      (∀ asc sh p b, Event.Write asc sh p (.ok b) ∈ r.2.trace →
        ∃ r', Event.OSD_OpenFile (c_string y) "rb" r' ∈ r.2.trace) ∧
      (∀ r', Event.OSD_OpenFile (c_string y) "rb" r' ∈ r.2.trace →
        (r.1 = .ok 0 ↔ ∃ f, r' = .ok (some f)) ∧ (r.1 = .ok 20 ↔ r' = .ok none)) ∧
      (∀ asc sh p b r', Event.Write asc sh p (.ok b) ∈ r.2.trace →
        Event.OSD_OpenFile (c_string y) "rb" r' ∈ r.2.trace →
        (∀ f, r' = .ok (some f) →
          r.2.trace.getLast? = some (.fclose f) ∧
          r.2.trace.dropLast.getLast? = some (.OSD_OpenFile (c_string y) "rb" r') ∧
          r.2.trace.dropLast.dropLast.getLast? = some (.Write asc sh p (.ok b))) ∧
        ((∀ f, r' ≠ .ok (some f)) →
          r.2.trace.getLast? = some (.OSD_OpenFile (c_string y) "rb" r') ∧
          r.2.trace.dropLast.getLast? = some (.Write asc sh p (.ok b)))))
    (stp2stl_convert_utf8 K fp (some x) (some y) o st)
  generalize hP : (fun r : Except Fault Int × St T => _) = P
  rw [convert_utf8_wp K fp x y o st hx hy P]
  simp only [convert_try, wp_bind, wp_kcall, wp_ite, wp_pure, wp_set_error, wp_fclose, wp_file]
  repeat' (first
    | (intro h; subst h)
    | (intro h; have h2 := congrArg Prod.snd h; clear h2 h)
    | intro _
    | apply And.intro)
  all_goals subst hP
  all_goals simp_all [Event.failed, Event.reportsFailure, Event.raised, raisedOf]

/-- Two runs of the amended C6. The mesher raises: its call is the last one
and the status is 101. The writer reports success and writes nothing: the
re-open follows the write, gives no file, and the status is 20. -/
theorem failures_are_hard_stops_witness :
    ValidPath inPath ∧ ValidPath outPath ∧
    (stp2stl_convert_utf8 (mockKernel { mockOk with meshRaises := some .other }) mockFloatOps
      (some inPath) (some outPath) none mockSt).1 = .ok 101 ∧
    (∀ e ∈ (stp2stl_convert_utf8 (mockKernel { mockOk with meshRaises := some .other })
        mockFloatOps (some inPath) (some outPath) none mockSt).2.trace.dropLast,
      e.failed (mockKernel { mockOk with meshRaises := some .other }) = false) ∧
    (stp2stl_convert_utf8 (mockKernel mockSilentWriter) mockFloatOps (some inPath)
        (some outPath) none mockSt).1 = .ok 20 ∧
    ((stp2stl_convert_utf8 (mockKernel mockSilentWriter) mockFloatOps (some inPath)
        (some outPath) none mockSt).2.trace.getLast? =
        some (.OSD_OpenFile (c_string outPath) "rb" (.ok none)) ∧
     (stp2stl_convert_utf8 (mockKernel mockSilentWriter) mockFloatOps (some inPath)
        (some outPath) none mockSt).2.trace.dropLast.getLast? =
        some (.Write false 1 (c_string outPath) (.ok true))) :=
  ⟨by decide, by decide, by decide,
   (failures_are_hard_stops (mockKernel { mockOk with meshRaises := some .other }) mockFloatOps
      inPath outPath none mockSt (by decide) (by decide)).1,
   ((failures_are_hard_stops (mockKernel mockSilentWriter) mockFloatOps
      inPath outPath none mockSt (by decide) (by decide)).2.2.2.1 (.ok none)
      (.tail _ (.tail _ (.tail _ (.tail _ (.tail _ (.tail _ (.head _)))))))).2.mpr rfl,
   ((failures_are_hard_stops (mockKernel mockSilentWriter) mockFloatOps
      inPath outPath none mockSt (by decide) (by decide)).2.2.2.2 false 1 (c_string outPath) true
      (.ok none)
      (.tail _ (.tail _ (.tail _ (.tail _ (.tail _ (.head _))))))
      (.tail _ (.tail _ (.tail _ (.tail _ (.tail _ (.tail _ (.head _)))))))).2
      (fun f h => by cases h)⟩


/-- C7: on validated paths, when the reader is set up and no call raises: a
read status other than done gives 10 and the call ends after `ReadFile`; a
done read with no root transferred gives 11 and the call ends after
`TransferRoots`; roots transferred and a null shape give 12 and the call ends
after `OneShape`. In the three cases the kernel calls of the conversion are
the ones listed: none of the scale step, no tessellation, no write, no
re-open of the output. -/
theorem load_failures {T : KTypes} (K : Kernel T) (fp : FloatOps)
    (x y : List Byte) (o : Option stp2stl_options) (st : St T)
    (hx : ValidPath x) (hy : ValidPath y) (w1 : T.World)
    (h0 : K.STEPControl_Reader st.world = (.ok (), w1)) :
    (∀ stat w2, K.ReadFile (c_string x) w1 = (.ok stat, w2) → stat ≠ .RetDone →
      stp2stl_convert_utf8 K fp (some x) (some y) o st =
        (.ok 10,
         { world := w2
           g_last_error := "STEP read failed: ReadFile returned non-success status"
           trace := [.STEPControl_Reader (.ok ()), .ReadFile (c_string x) (.ok stat)] })) ∧
    (∀ w2 w3, K.ReadFile (c_string x) w1 = (.ok .RetDone, w2) →
      K.TransferRoots w2 = (.ok 0, w3) →
      stp2stl_convert_utf8 K fp (some x) (some y) o st =
        (.ok 11,
         { world := w3
           g_last_error := "STEP read failed: TransferRoots failed"
           trace := [.STEPControl_Reader (.ok ()), .ReadFile (c_string x) (.ok .RetDone),
                     .TransferRoots (.ok 0)] })) ∧
    (∀ w2 n w3 s w4, K.ReadFile (c_string x) w1 = (.ok .RetDone, w2) →
      K.TransferRoots w2 = (.ok n, w3) → n ≠ 0 →
      K.OneShape w3 = (.ok s, w4) → K.IsNull s = true →
      stp2stl_convert_utf8 K fp (some x) (some y) o st =
        (.ok 12,
         { world := w4
           g_last_error := "STEP read failed: resulting shape is null"
           trace := [.STEPControl_Reader (.ok ()), .ReadFile (c_string x) (.ok .RetDone),
                     .TransferRoots (.ok n), .OneShape (.ok s)] })) := by
  refine ⟨?_, ?_, ?_⟩
  · intro stat w2 h1 hne
    rw [convert_utf8_valid K fp x y o st hx hy]
    simp [convert_impl, convert_try, bind, Prog.bind, kcall, set_error, pure, h0, h1, hne]
  · intro w2 w3 h1 h2
    rw [convert_utf8_valid K fp x y o st hx hy]
    simp [convert_impl, convert_try, bind, Prog.bind, kcall, set_error, pure, h0, h1, h2]
  · intro w2 n w3 s w4 h1 h2 hn h3 hs
    rw [convert_utf8_valid K fp x y o st hx hy]
    simp [convert_impl, convert_try, bind, Prog.bind, kcall, set_error, pure, h0, h1, h2, hn, h3,
      hs]

/-- Three runs of C7 on the test kernel: a failed read, no root, a null shape. -/
theorem load_failures_witness :
    ValidPath inPath ∧ ValidPath outPath ∧
    stp2stl_convert_utf8 (mockKernel { mockOk with readStatus := .RetFail }) mockFloatOps
        (some inPath) (some outPath) none mockSt =
      (.ok 10,
       { world := []
         g_last_error := "STEP read failed: ReadFile returned non-success status"
         trace := [.STEPControl_Reader (.ok ()), .ReadFile (c_string inPath) (.ok .RetFail)] }) ∧
    stp2stl_convert_utf8 (mockKernel { mockOk with roots := 0 }) mockFloatOps
        (some inPath) (some outPath) none mockSt =
      (.ok 11,
       { world := []
         g_last_error := "STEP read failed: TransferRoots failed"
         trace := [.STEPControl_Reader (.ok ()), .ReadFile (c_string inPath) (.ok .RetDone),
                   .TransferRoots (.ok 0)] }) ∧
    stp2stl_convert_utf8 (mockKernel { mockOk with shape := 0 }) mockFloatOps
        (some inPath) (some outPath) none mockSt =
      (.ok 12,
       { world := []
         g_last_error := "STEP read failed: resulting shape is null"
         trace := [.STEPControl_Reader (.ok ()), .ReadFile (c_string inPath) (.ok .RetDone),
                   .TransferRoots (.ok 1), .OneShape (.ok 0)] }) :=
  ⟨by decide, by decide,
   (load_failures (mockKernel { mockOk with readStatus := .RetFail }) mockFloatOps
      inPath outPath none mockSt (by decide) (by decide) [] rfl).1 .RetFail [] rfl (by decide),
   (load_failures (mockKernel { mockOk with roots := 0 }) mockFloatOps
      inPath outPath none mockSt (by decide) (by decide) [] rfl).2.1 [] [] rfl rfl,
   (load_failures (mockKernel { mockOk with shape := 0 }) mockFloatOps
      inPath outPath none mockSt (by decide) (by decide) [] rfl).2.2 [] 1 [] 0 [] rfl rfl
      (by decide) rfl rfl⟩

set_option maxHeartbeats 4000000 in
/-- C8: on validated paths, when no kernel call raises and the load gives a
shape that is not null: the status is 20 exactly when the re-open of the
output path for reading, made after the write, gives no file, and is 0
otherwise, exactly when the re-open gives a file. The write step was made and
returned, and what it reported plays no part. The re-open comes after the
write and at the end of the call: when it gives no file it is the last kernel
call and the write is the call before it; when it gives a file, the close of
that file is the last kernel call, the re-open the call before it and the
write the call before that. -/
theorem verify_decides_status {T : KTypes} (K : Kernel T) (fp : FloatOps)
    (x y : List Byte) (o : Option stp2stl_options) (st : St T)
    (hx : ValidPath x) (hy : ValidPath y)
    (hnr : ∀ e ∈ (stp2stl_convert_utf8 K fp (some x) (some y) o st).2.trace, e.raised = none)
    (hload : ∃ s, Event.OneShape (.ok s) ∈
        (stp2stl_convert_utf8 K fp (some x) (some y) o st).2.trace ∧ K.IsNull s = false) :
    ((stp2stl_convert_utf8 K fp (some x) (some y) o st).1 = .ok 20 ↔
      Event.OSD_OpenFile (c_string y) "rb" (.ok none) ∈
        (stp2stl_convert_utf8 K fp (some x) (some y) o st).2.trace) ∧
    ((stp2stl_convert_utf8 K fp (some x) (some y) o st).1 ≠ .ok 20 →
      (stp2stl_convert_utf8 K fp (some x) (some y) o st).1 = .ok 0) ∧
    ((stp2stl_convert_utf8 K fp (some x) (some y) o st).1 = .ok 0 ↔
      ∃ f, Event.OSD_OpenFile (c_string y) "rb" (.ok (some f)) ∈
        (stp2stl_convert_utf8 K fp (some x) (some y) o st).2.trace) ∧
    (∃ asc sh b, Event.Write asc sh (c_string y) (.ok b) ∈
        (stp2stl_convert_utf8 K fp (some x) (some y) o st).2.trace) ∧
    (∀ asc sh p b, Event.Write asc sh p (.ok b) ∈
        (stp2stl_convert_utf8 K fp (some x) (some y) o st).2.trace →
      ((stp2stl_convert_utf8 K fp (some x) (some y) o st).1 = .ok 20 →
        (stp2stl_convert_utf8 K fp (some x) (some y) o st).2.trace.getLast? =
          some (.OSD_OpenFile (c_string y) "rb" (.ok none)) ∧
        (stp2stl_convert_utf8 K fp (some x) (some y) o st).2.trace.dropLast.getLast? =
          some (.Write asc sh p (.ok b))) ∧
      (∀ f, Event.OSD_OpenFile (c_string y) "rb" (.ok (some f)) ∈
          (stp2stl_convert_utf8 K fp (some x) (some y) o st).2.trace →
        (stp2stl_convert_utf8 K fp (some x) (some y) o st).2.trace.getLast? =
          some (.fclose f) ∧
        (stp2stl_convert_utf8 K fp (some x) (some y) o st).2.trace.dropLast.getLast? =
          some (.OSD_OpenFile (c_string y) "rb" (.ok (some f))) ∧
        (stp2stl_convert_utf8 K fp (some x) (some y) o st).2.trace.dropLast.dropLast.getLast? =
          some (.Write asc sh p (.ok b)))) := by
  revert hnr hload
  show (fun r : Except Fault Int × St T =>
      (∀ e ∈ r.2.trace, e.raised = none) →
      (∃ s, Event.OneShape (.ok s) ∈ r.2.trace ∧ K.IsNull s = false) →
      (r.1 = .ok 20 ↔ Event.OSD_OpenFile (c_string y) "rb" (.ok none) ∈ r.2.trace) ∧
      (r.1 ≠ .ok 20 → r.1 = .ok 0) ∧
      (r.1 = .ok 0 ↔ ∃ f, Event.OSD_OpenFile (c_string y) "rb" (.ok (some f)) ∈ r.2.trace) ∧
      (∃ asc sh b, Event.Write asc sh (c_string y) (.ok b) ∈ r.2.trace) ∧
      (∀ asc sh p b, Event.Write asc sh p (.ok b) ∈ r.2.trace →
        (r.1 = .ok 20 →
          r.2.trace.getLast? = some (.OSD_OpenFile (c_string y) "rb" (.ok none)) ∧
          r.2.trace.dropLast.getLast? = some (.Write asc sh p (.ok b))) ∧
        (∀ f, Event.OSD_OpenFile (c_string y) "rb" (.ok (some f)) ∈ r.2.trace →
          r.2.trace.getLast? = some (.fclose f) ∧
          r.2.trace.dropLast.getLast? = some (.OSD_OpenFile (c_string y) "rb" (.ok (some f))) ∧
          r.2.trace.dropLast.dropLast.getLast? = some (.Write asc sh p (.ok b)))))
    (stp2stl_convert_utf8 K fp (some x) (some y) o st)
  generalize hP : (fun r : Except Fault Int × St T => _) = P
  rw [convert_utf8_wp K fp x y o st hx hy P]
  simp only [convert_try, wp_bind, wp_kcall, wp_ite, wp_pure, wp_set_error, wp_fclose, wp_file]
  repeat' (first | intro _ | apply And.intro)
  all_goals subst hP
  all_goals simp_all [Event.raised, raisedOf]

/-- Two runs of C8. The writer reports success and no file is there: the
status is 20, the re-open is the last kernel call and the write the call
before it. The writer writes the file: the status is 0, and the last three
kernel calls are the write, the re-open and the close. -/
theorem verify_decides_status_witness :
    ValidPath inPath ∧ ValidPath outPath ∧
    (stp2stl_convert_utf8 (mockKernel mockSilentWriter) mockFloatOps (some inPath) (some outPath)
      none mockSt).1 = .ok 20 ∧
    ((stp2stl_convert_utf8 (mockKernel mockSilentWriter) mockFloatOps (some inPath) (some outPath)
      none mockSt).1 = .ok 20 ↔
      Event.OSD_OpenFile (c_string outPath) "rb" (.ok none) ∈
        (stp2stl_convert_utf8 (mockKernel mockSilentWriter) mockFloatOps (some inPath)
          (some outPath) none mockSt).2.trace) ∧
    ((stp2stl_convert_utf8 (mockKernel mockSilentWriter) mockFloatOps (some inPath)
        (some outPath) none mockSt).2.trace.getLast? =
        some (.OSD_OpenFile (c_string outPath) "rb" (.ok none)) ∧
     (stp2stl_convert_utf8 (mockKernel mockSilentWriter) mockFloatOps (some inPath)
        (some outPath) none mockSt).2.trace.dropLast.getLast? =
        some (.Write false 1 (c_string outPath) (.ok true))) ∧
    (stp2stl_convert_utf8 (mockKernel mockOk) mockFloatOps (some inPath) (some outPath)
      none mockSt).1 = .ok 0 ∧
    ((stp2stl_convert_utf8 (mockKernel mockOk) mockFloatOps (some inPath)
        (some outPath) none mockSt).2.trace.getLast? = some (.fclose (c_string outPath)) ∧
     (stp2stl_convert_utf8 (mockKernel mockOk) mockFloatOps (some inPath)
        (some outPath) none mockSt).2.trace.dropLast.getLast? =
        some (.OSD_OpenFile (c_string outPath) "rb" (.ok (some (c_string outPath)))) ∧
     (stp2stl_convert_utf8 (mockKernel mockOk) mockFloatOps (some inPath)
        (some outPath) none mockSt).2.trace.dropLast.dropLast.getLast? =
        some (.Write false 1 (c_string outPath) (.ok true))) :=
  ⟨by decide, by decide, by decide,
   (verify_decides_status (mockKernel mockSilentWriter) mockFloatOps inPath outPath none mockSt
      (by decide) (by decide) (by decide)
      ⟨1, .tail _ (.tail _ (.tail _ (.head _))), rfl⟩).1,
   ((verify_decides_status (mockKernel mockSilentWriter) mockFloatOps inPath outPath none mockSt
      (by decide) (by decide) (by decide)
      ⟨1, .tail _ (.tail _ (.tail _ (.head _))), rfl⟩).2.2.2.2 false 1 (c_string outPath) true
      (.tail _ (.tail _ (.tail _ (.tail _ (.tail _ (.head _))))))).1 (by decide),
   by decide,
   ((verify_decides_status (mockKernel mockOk) mockFloatOps inPath outPath none mockSt
      (by decide) (by decide) (by decide)
      ⟨1, .tail _ (.tail _ (.tail _ (.head _))), rfl⟩).2.2.2.2 false 1 (c_string outPath) true
      (.tail _ (.tail _ (.tail _ (.tail _ (.tail _ (.head _))))))).2 (c_string outPath)
      (.tail _ (.tail _ (.tail _ (.tail _ (.tail _ (.tail _ (.head _)))))))⟩

set_option maxHeartbeats 4000000 in
/-- C10: on validated paths, after a load that gives the non-null shape `s`:
when `options.scale` is 1.0 no call of the scale step is made and the next
kernel call after the load is the mesher on `s`; when `options.scale` differs
from 1.0, `SetScale` is called once, about the origin (0,0,0) with factor
`options.scale`, the transform is built at most once, and once when `SetScale`
returns, on `s` with the transformation `SetScale` gave (as a copy), and when
it gives the shape `s'` the next kernel call is the mesher on `s'` and the
writer is called on no other shape than `s'`. -/
theorem scale_step {T : KTypes} (K : Kernel T) (fp : FloatOps)
    (x y : List Byte) (o : Option stp2stl_options) (st : St T)
    (hx : ValidPath x) (hy : ValidPath y)
    (w1 w2 w3 w4 : T.World) (n : Int) (s : T.Shape)
    (h0 : K.STEPControl_Reader st.world = (.ok (), w1))
    (h1 : K.ReadFile (c_string x) w1 = (.ok .RetDone, w2))
    (h2 : K.TransferRoots w2 = (.ok n, w3)) (hn : n ≠ 0)
    (h3 : K.OneShape w3 = (.ok s, w4)) (hs : K.IsNull s = false) :
    ((options_of o).scale = Double.one →
      (stp2stl_convert_utf8 K fp (some x) (some y) o st).2.trace.filter Event.isScaleStep = [] ∧
      (stp2stl_convert_utf8 K fp (some x) (some y) o st).2.trace.take 5 =
        [.STEPControl_Reader (.ok ()), .ReadFile (c_string x) (.ok .RetDone),
         .TransferRoots (.ok n), .OneShape (.ok s),
         .BRepMesh_IncrementalMesh s (options_of o).linear_deflection
           ((options_of o).relative_deflection != 0)
           (fp.mul (options_of o).angular_deflection_deg (fp.div Double.lit_pi Double.lit_180))
           ((options_of o).parallel != 0)
           (K.BRepMesh_IncrementalMesh s (options_of o).linear_deflection
             ((options_of o).relative_deflection != 0)
             (fp.mul (options_of o).angular_deflection_deg (fp.div Double.lit_pi Double.lit_180))
             ((options_of o).parallel != 0) w4).1]) ∧
    ((options_of o).scale ≠ Double.one →
      (stp2stl_convert_utf8 K fp (some x) (some y) o st).2.trace.filter Event.isSetScale =
        [.SetScale ⟨Double.zero, Double.zero, Double.zero⟩ (options_of o).scale
          (K.SetScale ⟨Double.zero, Double.zero, Double.zero⟩ (options_of o).scale w4).1] ∧
      (stp2stl_convert_utf8 K fp (some x) (some y) o st).2.trace.countP Event.isTransform ≤ 1 ∧
      (∀ trsf w5,
        K.SetScale ⟨Double.zero, Double.zero, Double.zero⟩ (options_of o).scale w4 =
          (.ok trsf, w5) →
        (stp2stl_convert_utf8 K fp (some x) (some y) o st).2.trace.filter Event.isTransform =
          [.BRepBuilderAPI_Transform s trsf true (K.BRepBuilderAPI_Transform s trsf true w5).1] ∧
        (∀ w6 s' w7, K.BRepBuilderAPI_Transform s trsf true w5 = (.ok (), w6) →
          K.Shape w6 = (.ok s', w7) →
          (stp2stl_convert_utf8 K fp (some x) (some y) o st).2.trace.take 8 =
            [.STEPControl_Reader (.ok ()), .ReadFile (c_string x) (.ok .RetDone),
             .TransferRoots (.ok n), .OneShape (.ok s),
             .SetScale ⟨Double.zero, Double.zero, Double.zero⟩ (options_of o).scale (.ok trsf),
             .BRepBuilderAPI_Transform s trsf true (.ok ()),
             .Shape (.ok s'),
             .BRepMesh_IncrementalMesh s' (options_of o).linear_deflection
               ((options_of o).relative_deflection != 0)
               (fp.mul (options_of o).angular_deflection_deg
                 (fp.div Double.lit_pi Double.lit_180))
               ((options_of o).parallel != 0)
               (K.BRepMesh_IncrementalMesh s' (options_of o).linear_deflection
                 ((options_of o).relative_deflection != 0)
                 (fp.mul (options_of o).angular_deflection_deg
                   (fp.div Double.lit_pi Double.lit_180))
                 ((options_of o).parallel != 0) w7).1] ∧
          (stp2stl_convert_utf8 K fp (some x) (some y) o st).2.trace.filter Event.isScaleStep =
            [.SetScale ⟨Double.zero, Double.zero, Double.zero⟩ (options_of o).scale (.ok trsf),
             .BRepBuilderAPI_Transform s trsf true (.ok ()), .Shape (.ok s')] ∧
          (∀ asc sh p q, Event.Write asc sh p q ∈
            (stp2stl_convert_utf8 K fp (some x) (some y) o st).2.trace → sh = s')))) := by
  have e1 : (options_of o).scale = Double.one ↔ Double.ne (options_of o).scale Double.one = false := by
    rw [← Bool.not_eq_true, Double.ne_one_iff]; exact not_not.symm
  rw [← Double.ne_one_iff, e1]
  refine ⟨?_, ?_⟩
  · intro hsc
    refine convert_utf8_elim K fp x y o st hx hy
      (stp2stl_convert_utf8 K fp (some x) (some y) o st) rfl ?_
    simp only [convert_try, wp_bind, wp_kcall, wp_ite, wp_pure, wp_set_error, wp_fclose, wp_file]
    simp only [h0, h1, h2, h3, hn, hs, hsc, Prod.mk.injEq, Except.ok.injEq, reduceCtorEq,
      false_and, and_imp, forall_eq', forall_apply_eq_imp_iff, forall_eq, false_imp_iff,
      implies_true, and_true, true_and, ne_eq, not_true_eq_false, not_false_eq_true,
      forall_const, imp_false, Bool.false_eq_true, List.nil_append, List.cons_append]
    rcases K.BRepMesh_IncrementalMesh s (options_of o).linear_deflection
      ((options_of o).relative_deflection != 0)
      (fp.mul (options_of o).angular_deflection_deg (fp.div Double.lit_pi Double.lit_180))
      ((options_of o).parallel != 0) w4 with ⟨rm, wm⟩
    simp [Event.isScaleStep]
    repeat' (first | intro _ | apply And.intro)
    all_goals simp_all
  · intro hsc
    refine ⟨?_, ?_, ?_⟩
    · refine convert_utf8_elim K fp x y o st hx hy
        (stp2stl_convert_utf8 K fp (some x) (some y) o st) rfl ?_
      simp only [convert_try, wp_bind, wp_kcall, wp_ite, wp_pure, wp_set_error, wp_fclose, wp_file]
      simp only [h0, h1, h2, h3, hn, hs, hsc, Prod.mk.injEq, Except.ok.injEq, reduceCtorEq,
        false_and, and_imp, forall_eq', forall_apply_eq_imp_iff, forall_eq, false_imp_iff,
        implies_true, and_true, true_and, ne_eq, not_true_eq_false, not_false_eq_true,
        forall_const, imp_false, Bool.false_eq_true, List.nil_append, List.cons_append]
      rcases K.SetScale ⟨Double.zero, Double.zero, Double.zero⟩ (options_of o).scale w4
        with ⟨r5, w5⟩
      simp [Event.isSetScale]
      repeat' (first | intro _ | apply And.intro)
      all_goals simp_all
    · refine convert_utf8_elim K fp x y o st hx hy
        (stp2stl_convert_utf8 K fp (some x) (some y) o st) rfl ?_
      simp only [convert_try, wp_bind, wp_kcall, wp_ite, wp_pure, wp_set_error, wp_fclose, wp_file]
      simp only [h0, h1, h2, h3, hn, hs, hsc, Prod.mk.injEq, Except.ok.injEq, reduceCtorEq,
        false_and, and_imp, forall_eq', forall_apply_eq_imp_iff, forall_eq, false_imp_iff,
        implies_true, and_true, true_and, ne_eq, not_true_eq_false, not_false_eq_true,
        forall_const, imp_false, Bool.false_eq_true, List.nil_append, List.cons_append]
      simp [Event.isTransform]
    · intro trsf w5 h5
      refine ⟨?_, ?_⟩
      · refine convert_utf8_elim K fp x y o st hx hy
          (stp2stl_convert_utf8 K fp (some x) (some y) o st) rfl ?_
        simp only [convert_try, wp_bind, wp_kcall, wp_ite, wp_pure, wp_set_error, wp_fclose,
          wp_file]
        simp only [h0, h1, h2, h3, h5, hn, hs, hsc, Prod.mk.injEq, Except.ok.injEq, reduceCtorEq,
          false_and, and_imp, forall_eq', forall_apply_eq_imp_iff, forall_eq, false_imp_iff,
          implies_true, and_true, true_and, ne_eq, not_true_eq_false, not_false_eq_true,
          forall_const, imp_false, Bool.false_eq_true, List.nil_append, List.cons_append]
        rcases K.BRepBuilderAPI_Transform s trsf true w5 with ⟨r6, w6⟩
        simp [Event.isTransform]
        repeat' (first | intro _ | apply And.intro)
        all_goals simp_all
      · intro w6 s' w7 h6 h7
        refine convert_utf8_elim K fp x y o st hx hy
          (stp2stl_convert_utf8 K fp (some x) (some y) o st) rfl ?_
        simp only [convert_try, wp_bind, wp_kcall, wp_ite, wp_pure, wp_set_error, wp_fclose,
          wp_file]
        simp only [h0, h1, h2, h3, h5, h6, h7, hn, hs, hsc, Prod.mk.injEq, Except.ok.injEq,
          reduceCtorEq, false_and, and_imp, forall_eq', forall_apply_eq_imp_iff, forall_eq,
          false_imp_iff, implies_true, and_true, true_and, ne_eq, not_true_eq_false,
          not_false_eq_true, forall_const, imp_false, Bool.false_eq_true, List.nil_append,
          List.cons_append]
        rcases K.BRepMesh_IncrementalMesh s' (options_of o).linear_deflection
          ((options_of o).relative_deflection != 0)
          (fp.mul (options_of o).angular_deflection_deg (fp.div Double.lit_pi Double.lit_180))
          ((options_of o).parallel != 0) w7 with ⟨rm, wm⟩
        simp [Event.isScaleStep]
        repeat' (first | intro _ | apply And.intro)
        all_goals simp_all

/-- Two runs of C10 on the test kernel: with the default options (scale 1.0)
no call of the scale step is made and the mesher gets the loaded shape 1; with
scale 2.0 `SetScale` is called once about the origin with factor 2.0 and the
mesher gets the transformed shape 2. -/
theorem scale_step_witness :
    ValidPath inPath ∧ ValidPath outPath ∧
    ((stp2stl_convert_utf8 (mockKernel mockOk) mockFloatOps (some inPath) (some outPath) none
        mockSt).2.trace.filter Event.isScaleStep = [] ∧
     (stp2stl_convert_utf8 (mockKernel mockOk) mockFloatOps (some inPath) (some outPath) none
        mockSt).2.trace.take 5 =
      [.STEPControl_Reader (.ok ()), .ReadFile (c_string inPath) (.ok .RetDone),
       .TransferRoots (.ok 1), .OneShape (.ok 1),
       .BRepMesh_IncrementalMesh 1 Double.lit_0_001 true
         (mockFloatOps.mul Double.lit_20 (mockFloatOps.div Double.lit_pi Double.lit_180))
         false (.ok ())]) ∧
    ((stp2stl_convert_utf8 (mockKernel mockOk) mockFloatOps (some inPath) (some outPath)
        (some { options_of none with scale := .fin 2 }) mockSt).2.trace.take 8 =
      [.STEPControl_Reader (.ok ()), .ReadFile (c_string inPath) (.ok .RetDone),
       .TransferRoots (.ok 1), .OneShape (.ok 1),
       .SetScale ⟨Double.zero, Double.zero, Double.zero⟩ (.fin 2) (.ok (.fin 2)),
       .BRepBuilderAPI_Transform 1 (.fin 2) true (.ok ()),
       .Shape (.ok 2),
       .BRepMesh_IncrementalMesh 2 Double.lit_0_001 true
         (mockFloatOps.mul Double.lit_20 (mockFloatOps.div Double.lit_pi Double.lit_180))
         false (.ok ())]) :=
  ⟨by decide, by decide,
   (scale_step (mockKernel mockOk) mockFloatOps inPath outPath none mockSt (by decide) (by decide)
      [] [] [] [] 1 1 rfl rfl rfl (by decide) rfl rfl).1 rfl,
   ((((scale_step (mockKernel mockOk) mockFloatOps inPath outPath
      (some { options_of none with scale := .fin 2 }) mockSt (by decide) (by decide)
      [] [] [] [] 1 1 rfl rfl rfl (by decide) rfl rfl).2 (by decide)).2.2
      (.fin 2) [] rfl).2 [] 2 [] rfl rfl).1⟩

/-! ## The validator: totality and the rejected sequences -/

theorem form_length (ch : List Byte) (h : Utf8Form ch) : 1 ≤ ch.length ∧ ch.length ≤ 4 := by
  rcases ch with _ | ⟨b0, _ | ⟨b1, _ | ⟨b2, _ | ⟨b3, _ | ⟨b4, t⟩⟩⟩⟩⟩
  all_goals simp [Utf8Form] at h ⊢

theorem stepL_length_le (l r : List Byte) (h : stepL l = some r) :
    r.length < l.length ∧ l.length ≤ r.length + 4 := by
  obtain ⟨ch, rfl, hf⟩ := stepL_some l r h
  have := form_length ch hf
  simp only [List.length_append]
  omega

theorem rd_ok_iff (s : List Byte) (j : Nat) : (∃ v, rd s j = .ok v) ↔ j < s.length := by
  unfold rd
  by_cases h : j < s.length
  · simp [List.getElem?_eq_getElem h, h]
  · simp [List.getElem?_eq_none (Nat.le_of_not_lt h), h]

/-- C12: `is_valid_utf8` is total: on every byte sequence it returns a boolean
(the fuel of the model never runs out and no read is out of bounds); at every
index below the length the loop body makes only reads inside the buffer, and
when it continues the index has grown by 1 to 4 and is at most the length. A
read of the model succeeds exactly at an index below the length. -/
theorem is_valid_utf8_total (s : List Byte) :
    (∃ b, is_valid_utf8 s = .ok b) ∧
    (∀ i, i < s.length → ∃ r, is_valid_utf8_body s s.length i = .ok r ∧
      ∀ i', r = .next i' → i + 1 ≤ i' ∧ i' ≤ i + 4 ∧ i' ≤ s.length) ∧
    (∀ j, (∃ v, rd s j = .ok v) ↔ j < s.length) := by
  refine ⟨⟨validL s, is_valid_utf8_eq s⟩, ?_, rd_ok_iff s⟩
  intro i hi
  have hd : s.drop i = s[i] :: s.drop (i + 1) := List.drop_eq_getElem_cons hi
  rw [body_eq_stepL s i _ _ hd]
  refine ⟨_, rfl, ?_⟩
  intro i' h
  cases hs : stepL (s[i] :: s.drop (i + 1)) with
  | none => rw [hs] at h; cases h
  | some r =>
    rw [hs] at h
    have hl := stepL_length_le _ r hs
    have hlen : (s[i] :: s.drop (i + 1)).length = s.length - i := by
      rw [← hd, List.length_drop]
    rw [hlen] at hl
    simp only [Step.next.injEq] at h
    omega

theorem validL_append_valid (p q : List Byte) (h : validL p = true) :
    validL (p ++ q) = validL q := by
  obtain ⟨chunks, hch, rfl⟩ := (validL_iff_chunks p).mp h
  clear h
  induction chunks with
  | nil => simp
  | cons ch cs ih =>
    rw [List.flatten_cons, List.append_assoc,
      validL_append_form ch _ (hch ch (List.mem_cons_self _ _))]
    exact ih (fun c hc => hch c (List.mem_cons_of_mem _ hc))

theorem is_valid_utf8_append (p q : List Byte) (h : is_valid_utf8 p = .ok true) :
    is_valid_utf8 (p ++ q) = is_valid_utf8 q := by
  rw [is_valid_utf8_eq] at h
  rw [is_valid_utf8_eq, is_valid_utf8_eq, validL_append_valid p q (by simpa using h)]

theorem inRangeAt_of_length_le (t : List Byte) (k lo hi : Nat) (h : t.length ≤ k) :
    inRangeAt t k lo hi = false := by
  unfold inRangeAt
  rw [List.getElem?_eq_none h]

theorem is_valid_utf8_of_stepL_none (c0 : Byte) (t : List Byte)
    (h : stepL (c0 :: t) = none) : is_valid_utf8 (c0 :: t) = .ok false := by
  rw [is_valid_utf8_eq, validL_cons, h]

/-- C13: truncated sequences are rejected: after an accepted prefix `p`, a lead
byte `L` in C2-F4 followed by fewer bytes than its sequence needs (fewer than
`expectedLength L - 1`) makes the whole input rejected. -/
theorem truncated_rejected (p : List Byte) (L : Byte) (t : List Byte)
    (hp : is_valid_utf8 p = .ok true) (hL : 0xC2 ≤ L.val ∧ L.val ≤ 0xF4)
    (ht : t.length < expectedLength L - 1) :
    is_valid_utf8 (p ++ [L] ++ t) = .ok false := by
  rw [List.append_assoc, is_valid_utf8_append p _ hp, List.singleton_append]
  apply is_valid_utf8_of_stepL_none
  have i0 := inRangeAt_of_length_le t 0
  have i1 := inRangeAt_of_length_le t 1
  have i2 := inRangeAt_of_length_le t 2
  unfold expectedLength at ht
  unfold stepL
  have hc : (194 ≤ L.val ∧ L.val ≤ 223) ∨ L.val = 224 ∨
      (225 ≤ L.val ∧ L.val ≤ 236) ∨ L.val = 237 ∨
      (238 ≤ L.val ∧ L.val ≤ 239) ∨ L.val = 240 ∨
      (241 ≤ L.val ∧ L.val ≤ 243) ∨ L.val = 244 := by omega
  rcases hc with hc | hc | hc | hc | hc | hc | hc | hc
  all_goals simp (disch := omega) only [if_pos, if_neg] at ht ⊢
  · rw [i0 _ _ (by omega)]; rfl
  · rw [i1 _ _ (by omega)]; simp
  · rw [i1 _ _ (by omega)]; simp
  · rw [i1 _ _ (by omega)]; simp
  · rw [i1 _ _ (by omega)]; simp
  · rw [i2 _ _ (by omega)]; simp
  · rw [i2 _ _ (by omega)]; simp
  · rw [i2 _ _ (by omega)]; simp

/-- C13 on the example of the contract: a lone `E1` after the accepted `A`. -/
theorem truncated_rejected_witness :
    is_valid_utf8 [0x41] = .ok true ∧ is_valid_utf8 ([0x41] ++ [0xE1] ++ []) = .ok false :=
  ⟨by decide, truncated_rejected [0x41] 0xE1 [] (by decide) (by decide) (by decide)⟩

/-- C14: encoded surrogates are rejected: after an accepted prefix `p`, the
lead `ED` followed by a byte in A0-BF makes the whole input rejected, whatever
follows. -/
theorem surrogate_rejected (p : List Byte) (b : Byte) (s : List Byte)
    (hp : is_valid_utf8 p = .ok true) (hb : 0xA0 ≤ b.val ∧ b.val ≤ 0xBF) :
    is_valid_utf8 (p ++ [0xED, b] ++ s) = .ok false := by
  rw [List.append_assoc, is_valid_utf8_append p _ hp]
  show is_valid_utf8 (0xED :: b :: s) = .ok false
  apply is_valid_utf8_of_stepL_none
  have e : ((0xED : Byte) : Nat) = 237 := rfl
  have hr : inRangeAt (b :: s) 0 0x80 0x9F = false := by
    simp [inRangeAt]; omega
  simp only [stepL, e, hr]
  simp (disch := omega) only [if_pos, if_neg, Bool.false_and, Bool.false_eq_true]
  simp

/-- C14 on U+D800 (`ED A0 80`) after the accepted `A`. -/
theorem surrogate_rejected_witness :
    is_valid_utf8 [0x41] = .ok true ∧
    is_valid_utf8 ([0x41] ++ [0xED, 0xA0] ++ [0x80]) = .ok false :=
  ⟨by decide, surrogate_rejected [0x41] 0xA0 [0x80] (by decide) (by decide)⟩

/-- C15: isolated continuation bytes are rejected: after an accepted prefix `p`
(the empty one included), a byte in 80-BF makes the whole input rejected,
whatever follows. -/
theorem isolated_continuation_rejected (p : List Byte) (c : Byte) (s : List Byte)
    (hp : is_valid_utf8 p = .ok true) (hc : 0x80 ≤ c.val ∧ c.val ≤ 0xBF) :
    is_valid_utf8 (p ++ [c] ++ s) = .ok false := by
  rw [List.append_assoc, is_valid_utf8_append p _ hp, List.singleton_append]
  apply is_valid_utf8_of_stepL_none
  simp only [stepL]
  simp (disch := omega) only [if_pos, if_neg]

/-- C15 on the empty prefix: `80` followed by `A`. -/
theorem isolated_continuation_rejected_witness :
    is_valid_utf8 [] = .ok true ∧ is_valid_utf8 ([] ++ [0x80] ++ [0x41]) = .ok false :=
  ⟨by decide, isolated_continuation_rejected [] 0x80 [0x41] (by decide) (by decide)⟩

theorem form_no_overlong_lead (ch : List Byte) (h : Utf8Form ch) :
    ∀ b ∈ ch, b.val ≠ 0xC0 ∧ b.val ≠ 0xC1 := by
  rcases ch with _ | ⟨b0, _ | ⟨b1, _ | ⟨b2, _ | ⟨b3, _ | ⟨b4, t⟩⟩⟩⟩⟩
  all_goals simp only [Utf8Form, within] at h
  all_goals simp only [List.mem_cons, List.mem_singleton, List.not_mem_nil, or_false,
    forall_eq_or_imp, forall_eq]
  all_goals omega

/-- C16: overlong 2-byte encodings are rejected: a byte sequence that has the
byte `C0` or `C1` at any position is rejected. -/
theorem overlong_lead_rejected (s : List Byte)
    (h : ∃ b ∈ s, b.val = 0xC0 ∨ b.val = 0xC1) : is_valid_utf8 s = .ok false := by
  rw [is_valid_utf8_eq]
  cases hv : validL s with
  | false => rfl
  | true =>
    exfalso
    obtain ⟨chunks, hch, rfl⟩ := (validL_iff_chunks s).mp hv
    obtain ⟨b, hb, hbv⟩ := h
    obtain ⟨ch, hmem, hbch⟩ := List.mem_flatten.mp hb
    have := form_no_overlong_lead ch (hch ch hmem) b hbch
    omega

/-- C16 on `C1` in the middle of an otherwise accepted text. -/
theorem overlong_lead_rejected_witness :
    (∃ b ∈ ([0x41, 0xC1, 0xBF, 0x42] : List Byte), b.val = 0xC0 ∨ b.val = 0xC1) ∧
    is_valid_utf8 [0x41, 0xC1, 0xBF, 0x42] = .ok false :=
  ⟨by decide, overlong_lead_rejected [0x41, 0xC1, 0xBF, 0x42] (by decide)⟩

/-! ## The default options (C11, C19) -/

/-- The literal `0.001` is the binary64 value nearest to 1/1000. -/
theorem lit_0_001_nearest : round64 false (1 / 1000) = Double.lit_0_001 := by decide!

/-- The literal `3.14159265358979323846` is the binary64 value nearest to it. -/
theorem lit_pi_nearest :
    round64 false (314159265358979323846 / 100000000000000000000) = Double.lit_pi := by decide!

/-- C11: for every options record `o`, `stp2stl_default_options` leaves in it
exactly linear_deflection = 0.001 (the binary64 value nearest to 1/1000),
angular_deflection_deg = 20.0, relative_deflection = 1, binary = 1,
scale = 1.0 and parallel = 0; the result is the same for every other record
`o'`, a second call leaves the same values, and the call with a null pointer
leaves the null pointer (there is nothing else it could change). -/
theorem default_options_exact (o : stp2stl_options) :
    stp2stl_default_options (some o) =
      some { linear_deflection := round64 false (1 / 1000)
             angular_deflection_deg := .fin 20
             relative_deflection := 1
             binary := 1
             scale := .fin 1
             parallel := 0 } ∧
    (∀ o' : stp2stl_options, stp2stl_default_options (some o') = stp2stl_default_options (some o)) ∧
    stp2stl_default_options (stp2stl_default_options (some o)) = stp2stl_default_options (some o) ∧
    stp2stl_default_options none = none := by
  rw [lit_0_001_nearest]
  refine ⟨rfl, fun _ => rfl, rfl, rfl⟩

/-- C19: for all paths (null pointers included), every kernel, every
arithmetic and every start state, the call with a null options pointer gives
the same result as the call with a pointer to a record `r0` that
`stp2stl_default_options` has filled, whatever `r0` held before: the same
status code, the same last-error string, the same sequence of kernel calls
with the same arguments and results, and the same world. And for every
options pointer the statements of the call leave the caller's record as it
was; with a non-null pointer the local record is a copy of the caller's
record, with a null pointer it holds the defaults, and on validated paths the
conversion runs on the local record. -/
theorem null_options_are_defaults {T : KTypes} (K : Kernel T) (fp : FloatOps)
    (a b : Option (List Byte)) (r0 : stp2stl_options) (st : St T) :
    stp2stl_convert_utf8 K fp a b none st =
      stp2stl_convert_utf8 K fp a b (stp2stl_default_options (some r0)) st ∧
    (stp2stl_convert_utf8 K fp a b none st).1 =
      (stp2stl_convert_utf8 K fp a b (stp2stl_default_options (some r0)) st).1 ∧
    stp2stl_last_error_utf8 (stp2stl_convert_utf8 K fp a b none st).2 =
      stp2stl_last_error_utf8
        (stp2stl_convert_utf8 K fp a b (stp2stl_default_options (some r0)) st).2 ∧
    (stp2stl_convert_utf8 K fp a b none st).2.trace =
      (stp2stl_convert_utf8 K fp a b (stp2stl_default_options (some r0)) st).2.trace ∧
    (∀ p : Option stp2stl_options, (stp2stl_convert_utf8_frame p).caller = p) ∧
    (∀ o : stp2stl_options, (stp2stl_convert_utf8_frame (some o)).opt = o) ∧
    stp2stl_default_options (some r0) = some (stp2stl_convert_utf8_frame none).opt ∧
    (∀ (x y : List Byte) (p : Option stp2stl_options), ValidPath x → ValidPath y →
      stp2stl_convert_utf8 K fp (some x) (some y) p st =
        (.ok (convert_impl K fp (c_string x) (c_string y) (stp2stl_convert_utf8_frame p).opt
                { world := st.world, g_last_error := "", trace := [] }).1,
         (convert_impl K fp (c_string x) (c_string y) (stp2stl_convert_utf8_frame p).opt
                { world := st.world, g_last_error := "", trace := [] }).2)) := by
  have h : stp2stl_convert_utf8 K fp a b none st =
      stp2stl_convert_utf8 K fp a b (stp2stl_default_options (some r0)) st := by
    cases a <;> cases b <;> rfl
  refine ⟨h, by rw [h], by rw [h], by rw [h], ?_, fun _ => rfl, rfl, ?_⟩
  · intro p
    cases p <;> rfl
  · intro x y p hx hy
    rw [convert_utf8_valid K fp x y p st hx hy]
    cases p <;> rfl

/-- A run of C19 on the test kernel with a caller's record that asks for a
scale of 2.0: the caller's record is as it was, the conversion runs on its
values (`SetScale` gets the factor 2.0), and the call with a null pointer is
the call with the defaults. -/
theorem null_options_are_defaults_witness :
    ValidPath inPath ∧ ValidPath outPath ∧
    (stp2stl_convert_utf8_frame (some { options_of none with scale := .fin 2 })).caller =
      some { options_of none with scale := .fin 2 } ∧
    stp2stl_convert_utf8 (mockKernel mockOk) mockFloatOps (some inPath) (some outPath)
        (some { options_of none with scale := .fin 2 }) mockSt =
      (.ok (convert_impl (mockKernel mockOk) mockFloatOps (c_string inPath) (c_string outPath)
              (stp2stl_convert_utf8_frame (some { options_of none with scale := .fin 2 })).opt
              { world := mockSt.world, g_last_error := "", trace := [] }).1,
       (convert_impl (mockKernel mockOk) mockFloatOps (c_string inPath) (c_string outPath)
              (stp2stl_convert_utf8_frame (some { options_of none with scale := .fin 2 })).opt
              { world := mockSt.world, g_last_error := "", trace := [] }).2) ∧
    (stp2stl_convert_utf8 (mockKernel mockOk) mockFloatOps (some inPath) (some outPath)
        (some { options_of none with scale := .fin 2 }) mockSt).2.trace.filter Event.isSetScale =
      [.SetScale ⟨Double.zero, Double.zero, Double.zero⟩ (.fin 2) (.ok (.fin 2))] ∧
    stp2stl_convert_utf8 (mockKernel mockOk) mockFloatOps (some inPath) (some outPath) none
        mockSt =
      stp2stl_convert_utf8 (mockKernel mockOk) mockFloatOps (some inPath) (some outPath)
        (stp2stl_default_options (some (default : stp2stl_options))) mockSt :=
  ⟨by decide, by decide,
   (null_options_are_defaults (mockKernel mockOk) mockFloatOps (some inPath) (some outPath)
      default mockSt).2.2.2.2.1 _,
   (null_options_are_defaults (mockKernel mockOk) mockFloatOps (some inPath) (some outPath)
      default mockSt).2.2.2.2.2.2.2 inPath outPath _ (by decide) (by decide),
   rfl,
   (null_options_are_defaults (mockKernel mockOk) mockFloatOps (some inPath) (some outPath)
      default mockSt).1⟩

/-! ## The parameters of the mesher (C20) -/

/-- In binary64 arithmetic, 180.0 times (the literal for pi divided by 180.0)
is the literal for pi. -/
theorem ieee754_deg180 :
    ieee754.mul Double.lit_180 (ieee754.div Double.lit_pi Double.lit_180) = Double.lit_pi := by
  decide!

set_option maxHeartbeats 4000000 in
/-- C20: on validated paths, after a load that gives the non-null shape `s`:
every call of the mesher in the run has linear deflection
`options.linear_deflection`, relative mode `options.relative_deflection != 0`,
angular deflection `options.angular_deflection_deg * (pi / 180.0)` and parallel
hint `options.parallel != 0`; the mesher is called exactly once, on `s`, when
`options.scale` is 1.0, and exactly once, on the transformed shape, when the
scale step gives one; and in binary64 arithmetic an `angular_deflection_deg`
of 180.0 is passed as the literal for pi. -/
theorem mesher_parameters {T : KTypes} (K : Kernel T) (fp : FloatOps)
    (x y : List Byte) (o : Option stp2stl_options) (st : St T)
    (hx : ValidPath x) (hy : ValidPath y)
    (w1 w2 w3 w4 : T.World) (n : Int) (s : T.Shape)
    (h0 : K.STEPControl_Reader st.world = (.ok (), w1))
    (h1 : K.ReadFile (c_string x) w1 = (.ok .RetDone, w2))
    (h2 : K.TransferRoots w2 = (.ok n, w3)) (hn : n ≠ 0)
    (h3 : K.OneShape w3 = (.ok s, w4)) (hs : K.IsNull s = false) :
    (∀ sh l r a p q, Event.BRepMesh_IncrementalMesh sh l r a p q ∈
        (stp2stl_convert_utf8 K fp (some x) (some y) o st).2.trace →
      l = (options_of o).linear_deflection ∧
      r = ((options_of o).relative_deflection != 0) ∧
      a = fp.mul (options_of o).angular_deflection_deg (fp.div Double.lit_pi Double.lit_180) ∧
      p = ((options_of o).parallel != 0)) ∧
    ((options_of o).scale = Double.one →
      (stp2stl_convert_utf8 K fp (some x) (some y) o st).2.trace.filter Event.isMesh =
        [.BRepMesh_IncrementalMesh s (options_of o).linear_deflection
           ((options_of o).relative_deflection != 0)
           (fp.mul (options_of o).angular_deflection_deg (fp.div Double.lit_pi Double.lit_180))
           ((options_of o).parallel != 0)
           (K.BRepMesh_IncrementalMesh s (options_of o).linear_deflection
             ((options_of o).relative_deflection != 0)
             (fp.mul (options_of o).angular_deflection_deg (fp.div Double.lit_pi Double.lit_180))
             ((options_of o).parallel != 0) w4).1]) ∧
    ((options_of o).scale ≠ Double.one →
      ∀ trsf w5 w6 s' w7,
        K.SetScale ⟨Double.zero, Double.zero, Double.zero⟩ (options_of o).scale w4 =
          (.ok trsf, w5) →
        K.BRepBuilderAPI_Transform s trsf true w5 = (.ok (), w6) →
        K.Shape w6 = (.ok s', w7) →
        (stp2stl_convert_utf8 K fp (some x) (some y) o st).2.trace.filter Event.isMesh =
          [.BRepMesh_IncrementalMesh s' (options_of o).linear_deflection
             ((options_of o).relative_deflection != 0)
             (fp.mul (options_of o).angular_deflection_deg (fp.div Double.lit_pi Double.lit_180))
             ((options_of o).parallel != 0)
             (K.BRepMesh_IncrementalMesh s' (options_of o).linear_deflection
               ((options_of o).relative_deflection != 0)
               (fp.mul (options_of o).angular_deflection_deg
                 (fp.div Double.lit_pi Double.lit_180))
               ((options_of o).parallel != 0) w7).1]) ∧
    (fp = ieee754 → (options_of o).angular_deflection_deg = Double.lit_180 →
      fp.mul (options_of o).angular_deflection_deg (fp.div Double.lit_pi Double.lit_180) =
        Double.lit_pi) := by
  have e1 : (options_of o).scale = Double.one ↔ Double.ne (options_of o).scale Double.one = false := by
    rw [← Bool.not_eq_true, Double.ne_one_iff]; exact not_not.symm
  rw [← Double.ne_one_iff, e1]
  refine ⟨?_, ?_, ?_, ?_⟩
  · show (fun res : Except Fault Int × St T =>
        ∀ sh l r a p q, Event.BRepMesh_IncrementalMesh sh l r a p q ∈ res.2.trace →
          l = (options_of o).linear_deflection ∧
          r = ((options_of o).relative_deflection != 0) ∧
          a = fp.mul (options_of o).angular_deflection_deg
            (fp.div Double.lit_pi Double.lit_180) ∧
          p = ((options_of o).parallel != 0))
      (stp2stl_convert_utf8 K fp (some x) (some y) o st)
    generalize hP : (fun res : Except Fault Int × St T => _) = P
    rw [convert_utf8_wp K fp x y o st hx hy P]
    simp only [convert_try, wp_bind, wp_kcall, wp_ite, wp_pure, wp_set_error, wp_fclose, wp_file]
    simp only [h0, h1, h2, h3, hn, hs, Prod.mk.injEq, Except.ok.injEq, reduceCtorEq,
      false_and, and_imp, forall_eq', forall_apply_eq_imp_iff, forall_eq, false_imp_iff,
      implies_true, and_true, true_and, ne_eq, not_true_eq_false, not_false_eq_true,
      forall_const, imp_false, Bool.false_eq_true, List.nil_append, List.cons_append]
    repeat' (first | intro _ | apply And.intro)
    all_goals subst hP
    all_goals simp_all
  · intro hsc
    refine convert_utf8_elim K fp x y o st hx hy
      (stp2stl_convert_utf8 K fp (some x) (some y) o st) rfl ?_
    simp only [convert_try, wp_bind, wp_kcall, wp_ite, wp_pure, wp_set_error, wp_fclose, wp_file]
    simp only [h0, h1, h2, h3, hn, hs, hsc, Prod.mk.injEq, Except.ok.injEq, reduceCtorEq,
      false_and, and_imp, forall_eq', forall_apply_eq_imp_iff, forall_eq, false_imp_iff,
      implies_true, and_true, true_and, ne_eq, not_true_eq_false, not_false_eq_true,
      forall_const, imp_false, Bool.false_eq_true, List.nil_append, List.cons_append]
    rcases K.BRepMesh_IncrementalMesh s (options_of o).linear_deflection
      ((options_of o).relative_deflection != 0)
      (fp.mul (options_of o).angular_deflection_deg (fp.div Double.lit_pi Double.lit_180))
      ((options_of o).parallel != 0) w4 with ⟨rm, wm⟩
    simp [Event.isMesh]
    repeat' (first | intro _ | apply And.intro)
    all_goals simp_all
  · intro hsc trsf w5 w6 s' w7 h5 h6 h7
    refine convert_utf8_elim K fp x y o st hx hy
      (stp2stl_convert_utf8 K fp (some x) (some y) o st) rfl ?_
    simp only [convert_try, wp_bind, wp_kcall, wp_ite, wp_pure, wp_set_error, wp_fclose,
      wp_file]
    simp only [h0, h1, h2, h3, h5, h6, h7, hn, hs, hsc, Prod.mk.injEq, Except.ok.injEq,
      reduceCtorEq, false_and, and_imp, forall_eq', forall_apply_eq_imp_iff, forall_eq,
      false_imp_iff, implies_true, and_true, true_and, ne_eq, not_true_eq_false,
      not_false_eq_true, forall_const, imp_false, Bool.false_eq_true, List.nil_append,
      List.cons_append]
    rcases K.BRepMesh_IncrementalMesh s' (options_of o).linear_deflection
      ((options_of o).relative_deflection != 0)
      (fp.mul (options_of o).angular_deflection_deg (fp.div Double.lit_pi Double.lit_180))
      ((options_of o).parallel != 0) w7 with ⟨rm, wm⟩
    simp [Event.isMesh]
    repeat' (first | intro _ | apply And.intro)
    all_goals simp_all
  · intro hfp hdeg
    rw [hfp, hdeg]
    exact ieee754_deg180

/-- A run of C20 on the test kernel in binary64 arithmetic, with the default
options but an angular deflection of 180.0 degrees: the mesher is called once,
on the loaded shape 1, with linear deflection 0.001, relative mode on, the
parallel hint off and the angle 180.0 * (pi / 180.0), which is the literal for
pi. -/
theorem mesher_parameters_witness :
    ValidPath inPath ∧ ValidPath outPath ∧
    (stp2stl_convert_utf8 (mockKernel mockOk) ieee754 (some inPath) (some outPath)
        (some { options_of none with angular_deflection_deg := Double.lit_180 })
        mockSt).2.trace.filter Event.isMesh =
      [.BRepMesh_IncrementalMesh 1 Double.lit_0_001 true
         (ieee754.mul Double.lit_180 (ieee754.div Double.lit_pi Double.lit_180)) false (.ok ())] ∧
    ieee754.mul Double.lit_180 (ieee754.div Double.lit_pi Double.lit_180) = Double.lit_pi :=
  ⟨by decide, by decide,
   (mesher_parameters (mockKernel mockOk) ieee754 inPath outPath
      (some { options_of none with angular_deflection_deg := Double.lit_180 }) mockSt
      (by decide) (by decide) [] [] [] [] 1 1 rfl rfl rfl (by decide) rfl rfl).2.1 rfl,
   (mesher_parameters (mockKernel mockOk) ieee754 inPath outPath
      (some { options_of none with angular_deflection_deg := Double.lit_180 }) mockSt
      (by decide) (by decide) [] [] [] [] 1 1 rfl rfl rfl (by decide) rfl rfl).2.2.2 rfl rfl⟩

/-! ## The command line front end (C17, C18) -/

/-- An argument is at most one of the eight option flags. -/
theorem streq_cases (a : List Byte) :
    (streq a "--deflection" = true ∧
      streq a "--angle" = false ∧
      streq a "--relative" = false ∧
      streq a "--absolute" = false ∧
      streq a "--binary" = false ∧
      streq a "--ascii" = false ∧
      streq a "--scale" = false ∧
      streq a "--parallel" = false) ∨
    (streq a "--deflection" = false ∧
      streq a "--angle" = true ∧
      streq a "--relative" = false ∧
      streq a "--absolute" = false ∧
      streq a "--binary" = false ∧
      streq a "--ascii" = false ∧
      streq a "--scale" = false ∧
      streq a "--parallel" = false) ∨
    (streq a "--deflection" = false ∧
      streq a "--angle" = false ∧
      streq a "--relative" = true ∧
      streq a "--absolute" = false ∧
      streq a "--binary" = false ∧
      streq a "--ascii" = false ∧
      streq a "--scale" = false ∧
      streq a "--parallel" = false) ∨
    (streq a "--deflection" = false ∧
      streq a "--angle" = false ∧
      streq a "--relative" = false ∧
      streq a "--absolute" = true ∧
      streq a "--binary" = false ∧
      streq a "--ascii" = false ∧
      streq a "--scale" = false ∧
      streq a "--parallel" = false) ∨
    (streq a "--deflection" = false ∧
      streq a "--angle" = false ∧
      streq a "--relative" = false ∧
      streq a "--absolute" = false ∧
      streq a "--binary" = true ∧
      streq a "--ascii" = false ∧
      streq a "--scale" = false ∧
      streq a "--parallel" = false) ∨
    (streq a "--deflection" = false ∧
      streq a "--angle" = false ∧
      streq a "--relative" = false ∧
      streq a "--absolute" = false ∧
      streq a "--binary" = false ∧
      streq a "--ascii" = true ∧
      streq a "--scale" = false ∧
      streq a "--parallel" = false) ∨
    (streq a "--deflection" = false ∧
      streq a "--angle" = false ∧
      streq a "--relative" = false ∧
      streq a "--absolute" = false ∧
      streq a "--binary" = false ∧
      streq a "--ascii" = false ∧
      streq a "--scale" = true ∧
      streq a "--parallel" = false) ∨
    (streq a "--deflection" = false ∧
      streq a "--angle" = false ∧
      streq a "--relative" = false ∧
      streq a "--absolute" = false ∧
      streq a "--binary" = false ∧
      streq a "--ascii" = false ∧
      streq a "--scale" = false ∧
      streq a "--parallel" = true) ∨
    (streq a "--deflection" = false ∧
      streq a "--angle" = false ∧
      streq a "--relative" = false ∧
      streq a "--absolute" = false ∧
      streq a "--binary" = false ∧
      streq a "--ascii" = false ∧
      streq a "--scale" = false ∧
      streq a "--parallel" = false) := by
  simp only [streq]
  generalize c_string a = k
  by_cases h0 : k = ascii "--deflection"
  · subst h0; left; decide
  by_cases h1 : k = ascii "--angle"
  · subst h1; right; left; decide
  by_cases h2 : k = ascii "--relative"
  · subst h2; right; right; left; decide
  by_cases h3 : k = ascii "--absolute"
  · subst h3; right; right; right; left; decide
  by_cases h4 : k = ascii "--binary"
  · subst h4; right; right; right; right; left; decide
  by_cases h5 : k = ascii "--ascii"
  · subst h5; right; right; right; right; right; left; decide
  by_cases h6 : k = ascii "--scale"
  · subst h6; right; right; right; right; right; right; left; decide
  by_cases h7 : k = ascii "--parallel"
  · subst h7; right; right; right; right; right; right; right; left; decide
  · right; right; right; right; right; right; right; right; simp [h0, h1, h2, h3, h4, h5, h6, h7]

/-- A flag that takes a value is not a flag that takes none. -/
theorem flags_disjoint (a : List Byte) (h : isValueFlag a = true) : isPlainFlag a = false := by
  rcases streq_cases a with c | c | c | c | c | c | c | c | c <;>
    obtain ⟨c0, c1, c2, c3, c4, c5, c6, c7⟩ := c <;>
    simp_all [isValueFlag, isPlainFlag]

/-- A C string has no NUL before its end. -/
theorem c_string_getD_ne_zero (s : List Byte) (i : Nat) (h : i < (c_string s).length) :
    (c_string s).getD i 0 ≠ 0 := by
  have hm : (c_string s).get ⟨i, h⟩ ∈ c_string s := List.get_mem _ _ _
  have := List.mem_takeWhile_imp hm
  rw [List.getD_eq_getElem _ _ h]
  simpa using this

/-- When `strtod` reads the argument in full, `parse_double` returns 1 and
stores the number. -/
theorem parse_double_of_full (strtod : List Byte → Double × Nat) (s : List Byte) (out : Double)
    (h : parsesInFull strtod s) :
    parse_double strtod (some s) out = (1, valueOf strtod s) := by
  obtain ⟨hne, hlen⟩ := h
  have h0 : (strtod (c_string s)).2 ≠ 0 := by
    rw [hlen]
    exact fun e => hne (List.length_eq_zero.mp e)
  have h1 : (c_string s).getD (strtod (c_string s)).2 0 = 0 := by
    rw [hlen]
    exact List.getD_eq_default _ _ le_rfl
  simp only [parse_double, valueOf]
  rw [if_neg (by simpa using hne), if_neg (fun h => h.elim h0 (fun h' => h' h1))]

/-- When `strtod` does not read the argument in full, `parse_double` returns 0
and stores nothing. The end pointer of `strtod` is within the string. -/
theorem parse_double_of_not_full (strtod : List Byte → Double × Nat)
    (hstrtod : ∀ t, (strtod t).2 ≤ t.length) (s : List Byte) (out : Double)
    (h : ¬ parsesInFull strtod s) :
    parse_double strtod (some s) out = (0, out) := by
  unfold parse_double
  simp only
  by_cases hne : c_string s = []
  · simp [hne]
  · have hlen : (strtod (c_string s)).2 ≠ (c_string s).length := fun e => h ⟨hne, e⟩
    have hlt : (strtod (c_string s)).2 < (c_string s).length :=
      lt_of_le_of_ne (hstrtod _) hlen
    have hnz := c_string_getD_ne_zero s _ hlt
    rw [if_neg (by simpa using hne), if_pos (Or.inr hnz)]

/-- The test `!parse_double(s, &v) || v <= 0.0` fails exactly on an accepted value. -/
theorem value_test_iff (strtod : List Byte → Double × Nat)
    (hstrtod : ∀ t, (strtod t).2 ≤ t.length) (s : List Byte) :
    ((decide ((parse_double strtod (some s) Double.zero).1 = 0) ||
      Double.le (parse_double strtod (some s) Double.zero).2 Double.zero) = true) ↔
      ¬ valueAccepted strtod s := by
  unfold valueAccepted
  by_cases hf : parsesInFull strtod s
  · rw [parse_double_of_full strtod s _ hf]
    simp [hf]
  · rw [parse_double_of_not_full strtod hstrtod s _ hf]
    simp [hf]

/-- The number that `parse_double` stores for an accepted value. -/
theorem parse_double_of_accepted (strtod : List Byte → Double × Nat) (s : List Byte)
    (h : valueAccepted strtod s) :
    (parse_double strtod (some s) Double.zero).2 = valueOf strtod s := by
  rw [parse_double_of_full strtod s _ h.1]

/-- The empty list of arguments has no error. -/
theorem optionError_nil (strtod : List Byte → Double × Nat) : ¬ OptionError strtod [] := by
  intro h
  cases h

/-- A single argument is an error unless it is a flag that takes no value. -/
theorem optionError_single (strtod : List Byte → Double × Nat) (a : List Byte) :
    OptionError strtod [a] ↔ isPlainFlag a = false := by
  constructor
  · intro h
    cases h with
    | unknown _ _ hv hp => exact hp
    | noValue _ hv => exact flags_disjoint a hv
    | afterPlain _ _ hp h' => exact absurd h' (optionError_nil strtod)
  · intro hp
    cases hv : isValueFlag a
    · exact .unknown a [] hv hp
    · exact .noValue a hv

/-- The errors of a list of two arguments or more, by its first argument. -/
theorem optionError_cons_cons (strtod : List Byte → Double × Nat) (a s : List Byte)
    (rest : List (List Byte)) :
    OptionError strtod (a :: s :: rest) ↔
      (isValueFlag a = false ∧ isPlainFlag a = false) ∨
      (isValueFlag a = true ∧ ¬ valueAccepted strtod s) ∨
      (isPlainFlag a = true ∧ OptionError strtod (s :: rest)) ∨
      (isValueFlag a = true ∧ valueAccepted strtod s ∧ OptionError strtod rest) := by
  constructor
  · intro h
    cases h with
    | unknown _ _ hv hp => exact Or.inl ⟨hv, hp⟩
    | badValue _ _ _ hv hs => exact Or.inr (Or.inl ⟨hv, hs⟩)
    | afterPlain _ _ hp h' => exact Or.inr (Or.inr (Or.inl ⟨hp, h'⟩))
    | afterValue _ _ _ hv hs h' => exact Or.inr (Or.inr (Or.inr ⟨hv, hs, h'⟩))
  · rintro (⟨hv, hp⟩ | ⟨hv, hs⟩ | ⟨hp, h'⟩ | ⟨hv, hs, h'⟩)
    · exact .unknown a _ hv hp
    · exact .badValue a s rest hv hs
    · exact .afterPlain a _ hp h'
    · exact .afterValue a s rest hv hs h'

/-- The option loop ends in `return 2` exactly when the arguments have an error. -/
theorem main_options_none_iff (strtod : List Byte → Double × Nat)
    (hstrtod : ∀ t, (strtod t).2 ≤ t.length) :
    ∀ (n : Nat) (l : List (List Byte)), l.length ≤ n → ∀ opt : stp2stl_options,
      (main_options strtod l opt = none ↔ OptionError strtod l) := by
  intro n
  induction n using Nat.strong_induction_on with
  | _ n ih =>
    intro l hl opt
    match l, hl with
    | [], _ => simp [main_options, optionError_nil]
    | [a], _ =>
      rw [optionError_single]
      rcases streq_cases a with c | c | c | c | c | c | c | c | c <;>
        obtain ⟨c0, c1, c2, c3, c4, c5, c6, c7⟩ := c <;>
        simp [main_options, isPlainFlag, c0, c1, c2, c3, c4, c5, c6, c7]
    | a :: s :: rest, hl =>
      have ih1 : ∀ opt : stp2stl_options,
          (main_options strtod (s :: rest) opt = none ↔ OptionError strtod (s :: rest)) :=
        ih (n - 1) (by simp at hl; omega) (s :: rest) (by simp at hl ⊢; omega)
      have ih2 : ∀ opt : stp2stl_options,
          (main_options strtod rest opt = none ↔ OptionError strtod rest) :=
        ih (n - 1) (by simp at hl; omega) rest (by simp at hl ⊢; omega)
      rw [optionError_cons_cons]
      by_cases hacc : valueAccepted strtod s
      · have hb : (decide ((parse_double strtod (some s) Double.zero).1 = 0) ||
            Double.le (parse_double strtod (some s) Double.zero).2 Double.zero) = false :=
          Bool.eq_false_iff.mpr (fun h => (value_test_iff strtod hstrtod s).mp h hacc)
        rcases streq_cases a with c | c | c | c | c | c | c | c | c <;>
          obtain ⟨c0, c1, c2, c3, c4, c5, c6, c7⟩ := c <;>
          simp only [main_options, c0, c1, c2, c3, c4, c5, c6, c7, hb] <;>
          simp [isPlainFlag, isValueFlag, c0, c1, c2, c3, c4, c5, c6, c7, ih1, ih2, hacc]
      · have hb : (decide ((parse_double strtod (some s) Double.zero).1 = 0) ||
            Double.le (parse_double strtod (some s) Double.zero).2 Double.zero) = true :=
          (value_test_iff strtod hstrtod s).mpr hacc
        rcases streq_cases a with c | c | c | c | c | c | c | c | c <;>
          obtain ⟨c0, c1, c2, c3, c4, c5, c6, c7⟩ := c <;>
          simp only [main_options, c0, c1, c2, c3, c4, c5, c6, c7, hb] <;>
          simp [isPlainFlag, isValueFlag, c0, c1, c2, c3, c4, c5, c6, c7, ih1, ih2, hacc]

/-- A record overridden by no flag is the record. -/
theorem overrideOptions_nil (strtod : List Byte → Double × Nat) (d : stp2stl_options) :
    overrideOptions strtod d [] = d := by
  cases d
  simp [overrideOptions, lastValue, lastSwitch, lastOr]

/-- When the option loop runs to its end, the record it leaves is the record
it started from overridden by the flags given, the last occurrence winning. -/
theorem main_options_some (strtod : List Byte → Double × Nat)
    (hstrtod : ∀ t, (strtod t).2 ≤ t.length) :
    ∀ (n : Nat) (l : List (List Byte)), l.length ≤ n → ∀ opt opt' : stp2stl_options,
      main_options strtod l opt = some opt' →
      opt' = overrideOptions strtod opt (flagsGiven l) := by
  intro n
  induction n using Nat.strong_induction_on with
  | _ n ih =>
    intro l hl opt opt'
    match l, hl with
    | [], _ =>
      intro h
      simp only [main_options, Option.some.injEq] at h
      subst h
      simp [flagsGiven, overrideOptions_nil]
    | [a], _ =>
      rcases streq_cases a with c | c | c | c | c | c | c | c | c <;>
        obtain ⟨c0, c1, c2, c3, c4, c5, c6, c7⟩ := c <;>
        simp only [main_options, c0, c1, c2, c3, c4, c5, c6, c7] <;>
        intro h <;> simp at h <;> subst h <;> cases opt <;>
        simp only [flagsGiven, overrideOptions, List.any_cons, List.any_nil, c7, Bool.false_or,
          Bool.true_or] <;>
        simp [lastValue, lastSwitch, lastOr, c0, c1, c2, c3, c4, c5, c6, c7]
    | a :: s :: rest, hl =>
      have ih1 := ih (n - 1) (by simp at hl; omega) (s :: rest) (by simp at hl ⊢; omega)
      have ih2 := ih (n - 1) (by simp at hl; omega) rest (by simp at hl ⊢; omega)
      by_cases hb : (decide ((parse_double strtod (some s) Double.zero).1 = 0) ||
            Double.le (parse_double strtod (some s) Double.zero).2 Double.zero) = true
      · rcases streq_cases a with c | c | c | c | c | c | c | c | c <;>
          obtain ⟨c0, c1, c2, c3, c4, c5, c6, c7⟩ := c <;>
          simp only [main_options, c0, c1, c2, c3, c4, c5, c6, c7, hb] <;>
          simp only [Bool.false_eq_true, if_false, if_true] <;>
          intro h <;>
          first
          | exact (Option.some_ne_none _ h.symm).elim
          | (have hfg : flagsGiven (a :: s :: rest) = (a, none) :: flagsGiven (s :: rest) := by
               simp [flagsGiven, isValueFlag, c0, c1, c6]
             rw [ih1 _ _ h, hfg]
             simp only [overrideOptions, List.any_cons, c7, Bool.false_or, Bool.true_or]
             simp [lastValue, lastValue, lastSwitch, lastOr,
               c0, c1, c2, c3, c4, c5, c6, c7])
      · have hv : (parse_double strtod (some s) Double.zero).2 = valueOf strtod s := by
          have h1 : (parse_double strtod (some s) Double.zero).1 ≠ 0 := by
            intro e
            exact hb (by simp [e])
          by_cases hf : parsesInFull strtod s
          · rw [parse_double_of_full strtod s _ hf]
          · exact absurd (by rw [parse_double_of_not_full strtod hstrtod s _ hf]) h1
        have hb' : (decide ((parse_double strtod (some s) Double.zero).1 = 0) ||
            Double.le (parse_double strtod (some s) Double.zero).2 Double.zero) = false := by
          simpa using hb
        rcases streq_cases a with c | c | c | c | c | c | c | c | c <;>
          obtain ⟨c0, c1, c2, c3, c4, c5, c6, c7⟩ := c <;>
          simp only [main_options, c0, c1, c2, c3, c4, c5, c6, c7, hb'] <;>
          simp only [Bool.false_eq_true, if_false, if_true] <;>
          intro h <;>
          first
          | (have hfg : flagsGiven (a :: s :: rest) = (a, none) :: flagsGiven (s :: rest) := by
               simp [flagsGiven, isValueFlag, c0, c1, c6]
             rw [ih1 _ _ h, hfg]
             simp only [overrideOptions, List.any_cons, c7, Bool.false_or, Bool.true_or]
             simp [lastValue, lastValue, lastSwitch, lastOr,
               c0, c1, c2, c3, c4, c5, c6, c7])
          | (have hfg : flagsGiven (a :: s :: rest) = (a, some s) :: flagsGiven rest := by
               simp [flagsGiven, isValueFlag, c0, c1, c6]
             rw [ih2 _ _ h, hfg]
             simp only [overrideOptions, List.any_cons, c7, Bool.false_or, Bool.true_or]
             simp [lastValue, lastValue, lastSwitch, lastOr,
               c0, c1, c2, c3, c4, c5, c6, c7, hv])
          | exact (Option.some_ne_none _ h.symm).elim

/-- The `return rc` after a failed conversion and the `return 0` after a
successful one give back the status code. -/
theorem exit_of_status (r : Except Fault Int) :
    (match r with
      | .ok rc => if rc ≠ 0 then (.ok rc : Except Fault Int) else .ok 0
      | .error f => .error f) = r := by
  cases r with
  | error f => rfl
  | ok rc =>
    by_cases h : rc = 0
    · simp [h]
    · simp [h]

/-- The end pointer of the test `strtod` is within the string. -/
theorem mockStrtod_end (t : List Byte) : (mockStrtod t).2 ≤ t.length := by
  unfold mockStrtod
  split_ifs with h1 h2 h3 h4
  · subst h1; decide
  · subst h2; decide
  · subst h3; decide
  · subst h4; decide
  · exact Nat.zero_le _

/-- The arguments `--deflection 0.5 --ascii` have no error for the test `strtod`. -/
theorem no_error_example :
    ¬ OptionError mockStrtod [ascii "--deflection", ascii "0.5", ascii "--ascii"] :=
  fun he => absurd
    ((main_options_none_iff mockStrtod mockStrtod_end _ _ le_rfl
      (stp2stl_default_options_assign default)).mpr he) (by decide!)

/-- C17: for every argument vector with no `--help`, `-h` or `--version`
after the program name (and a `strtod` whose end pointer is within the string
it is given): when fewer than two arguments follow the program name, or the
arguments after the two paths have an error (an argument that is not a known
flag, a value flag in last place, or a value that `strtod` does not read in
full or that is less than or equal to 0), `main` returns 2 and does not call
the conversion; in every other case `main` calls `stp2stl_convert_utf8` once,
with `argv[1]`, `argv[2]` and the parsed options (the defaults overridden by
the flags given, the last occurrence winning), and returns its status code. -/
theorem main_exit_code {T : KTypes} (K : Kernel T) (fp : FloatOps)
    (strtod : List Byte → Double × Nat) (argv : List (List Byte)) (st : St T)
    (hstrtod : ∀ t, (strtod t).2 ≤ t.length)
    (hh : (argv.drop 1).any isHelpOrVersion = false) :
    ((argv.length < 3 ∨ OptionError strtod (argv.drop 3)) →
      (main K fp strtod argv st).exit = .ok 2 ∧
      (main K fp strtod argv st).called = none ∧
      (main K fp strtod argv st).st = st) ∧
    (¬ (argv.length < 3 ∨ OptionError strtod (argv.drop 3)) →
      main_options strtod (argv.drop 3) (stp2stl_default_options_assign default) =
        some (parsedOptions strtod (argv.drop 3)) ∧
      (main K fp strtod argv st).called =
        some (argv.getD 1 [], argv.getD 2 [], parsedOptions strtod (argv.drop 3)) ∧
      (main K fp strtod argv st).exit =
        (stp2stl_convert_utf8 K fp (some (argv.getD 1 [])) (some (argv.getD 2 []))
          (some (parsedOptions strtod (argv.drop 3))) st).1 ∧
      (main K fp strtod argv st).st =
        (stp2stl_convert_utf8 K fp (some (argv.getD 1 [])) (some (argv.getD 2 []))
          (some (parsedOptions strtod (argv.drop 3))) st).2) := by
  have hh' : (argv.drop 1).any
      (fun a => streq a "--help" || streq a "-h" || streq a "--version") = false := hh
  match argv, hh' with
  | [], _ => simp [main]
  | [_], _ => simp [main]
  | [_, i], hh' =>
    simp only [main, hh']
    simp
  | p :: i :: o :: rest, hh' =>
    have hlen : ¬ (p :: i :: o :: rest).length < 2 := by simp
    have hlen3 : ¬ (p :: i :: o :: rest).length < 3 := by simp
    simp only [main, hlen, hh', if_false, Bool.false_eq_true]
    simp only [hlen3, false_or, List.drop_succ_cons, List.drop_zero, List.getD_cons_succ,
      List.getD_cons_zero]
    cases hm : main_options strtod rest (stp2stl_default_options_assign default) with
    | none =>
      have he : OptionError strtod rest :=
        (main_options_none_iff strtod hstrtod _ rest le_rfl _).mp hm
      simp [he]
    | some opt =>
      have he : ¬ OptionError strtod rest := by
        intro he
        rw [(main_options_none_iff strtod hstrtod _ rest le_rfl _).mpr he] at hm
        cases hm
      have ho : opt = parsedOptions strtod rest :=
        main_options_some strtod hstrtod _ rest le_rfl _ _ hm
      subst ho
      simp only [he, not_false_eq_true, forall_const, false_imp_iff, true_and, exit_of_status,
        and_self]

/-- Three runs of C17 on the test kernel. With `--deflection` in last place,
and with `--deflection 1x`, of which `strtod` reads only the first byte,
`main` returns 2 without a call of the conversion; with `--deflection 0.5
--ascii` it calls the conversion with the two paths and the defaults
overridden by a linear deflection of 0.5 and ASCII output, and returns its
status code. -/
theorem main_exit_code_witness :
    (∀ t, (mockStrtod t).2 ≤ t.length) ∧
    ([progName, inPath, outPath, ascii "--deflection"].drop 1).any isHelpOrVersion = false ∧
    ((main (mockKernel mockOk) mockFloatOps mockStrtod
        [progName, inPath, outPath, ascii "--deflection"] mockSt).exit = .ok 2 ∧
     (main (mockKernel mockOk) mockFloatOps mockStrtod
        [progName, inPath, outPath, ascii "--deflection"] mockSt).called = none ∧
     (main (mockKernel mockOk) mockFloatOps mockStrtod
        [progName, inPath, outPath, ascii "--deflection"] mockSt).st = mockSt) ∧
    ([progName, inPath, outPath, ascii "--deflection", ascii "1x"].drop 1).any
      isHelpOrVersion = false ∧
    ((main (mockKernel mockOk) mockFloatOps mockStrtod
        [progName, inPath, outPath, ascii "--deflection", ascii "1x"] mockSt).exit = .ok 2 ∧
     (main (mockKernel mockOk) mockFloatOps mockStrtod
        [progName, inPath, outPath, ascii "--deflection", ascii "1x"] mockSt).called = none ∧
     (main (mockKernel mockOk) mockFloatOps mockStrtod
        [progName, inPath, outPath, ascii "--deflection", ascii "1x"] mockSt).st = mockSt) ∧
    ([progName, inPath, outPath, ascii "--deflection", ascii "0.5", ascii "--ascii"].drop 1).any
      isHelpOrVersion = false ∧
    parsedOptions mockStrtod
        ([progName, inPath, outPath, ascii "--deflection", ascii "0.5", ascii "--ascii"].drop 3) =
      { linear_deflection := .fin (1 / 2)
        angular_deflection_deg := Double.lit_20
        relative_deflection := 1
        binary := 0
        scale := Double.one
        parallel := 0 } ∧
    (main (mockKernel mockOk) mockFloatOps mockStrtod
        [progName, inPath, outPath, ascii "--deflection", ascii "0.5", ascii "--ascii"]
        mockSt).called =
      some ([progName, inPath, outPath, ascii "--deflection", ascii "0.5", ascii "--ascii"].getD
          1 [],
        [progName, inPath, outPath, ascii "--deflection", ascii "0.5", ascii "--ascii"].getD 2 [],
        parsedOptions mockStrtod
          ([progName, inPath, outPath, ascii "--deflection", ascii "0.5", ascii "--ascii"].drop
            3)) ∧
    (main (mockKernel mockOk) mockFloatOps mockStrtod
        [progName, inPath, outPath, ascii "--deflection", ascii "0.5", ascii "--ascii"]
        mockSt).exit =
      (stp2stl_convert_utf8 (mockKernel mockOk) mockFloatOps
        (some ([progName, inPath, outPath, ascii "--deflection", ascii "0.5",
          ascii "--ascii"].getD 1 []))
        (some ([progName, inPath, outPath, ascii "--deflection", ascii "0.5",
          ascii "--ascii"].getD 2 []))
        (some (parsedOptions mockStrtod
          ([progName, inPath, outPath, ascii "--deflection", ascii "0.5", ascii "--ascii"].drop
            3))) mockSt).1 :=
  ⟨mockStrtod_end, by decide,
   (main_exit_code (mockKernel mockOk) mockFloatOps mockStrtod
      [progName, inPath, outPath, ascii "--deflection"] mockSt mockStrtod_end (by decide)).1
      (Or.inr (.noValue _ (by decide))),
   by decide,
   (main_exit_code (mockKernel mockOk) mockFloatOps mockStrtod
      [progName, inPath, outPath, ascii "--deflection", ascii "1x"] mockSt mockStrtod_end
      (by decide)).1
      (Or.inr (.badValue _ _ _ (by decide) (fun h => absurd h.1.2 (by decide)))),
   by decide, rfl,
   ((main_exit_code (mockKernel mockOk) mockFloatOps mockStrtod
      [progName, inPath, outPath, ascii "--deflection", ascii "0.5", ascii "--ascii"] mockSt
      mockStrtod_end (by decide)).2
      (fun h => h.elim (by decide) no_error_example)).2.1,
   ((main_exit_code (mockKernel mockOk) mockFloatOps mockStrtod
      [progName, inPath, outPath, ascii "--deflection", ascii "0.5", ascii "--ascii"] mockSt
      mockStrtod_end (by decide)).2
      (fun h => h.elim (by decide) no_error_example)).2.2.1⟩
/-- The run of C18 that the code gets wrong: `stp2stl in.stp out.stl
--deflection nan`. `strtod` reads `nan` in full as a NaN, the test `v <= 0.0`
is false for a NaN, and `main` calls the conversion with a record whose
`linear_deflection` is a NaN, which is not greater than 0; the NaN reaches the
mesher, and `main` returns 0. -/
theorem nan_value_accepted :
    parse_double mockStrtod (some (ascii "nan")) Double.zero = (1, Double.nan) ∧
    (main (mockKernel mockOk) mockFloatOps mockStrtod
        [progName, inPath, outPath, ascii "--deflection", ascii "nan"] mockSt).called =
      some (inPath, outPath, { options_of none with linear_deflection := Double.nan }) ∧
    Double.lt Double.zero Double.nan = false ∧
    (main (mockKernel mockOk) mockFloatOps mockStrtod
        [progName, inPath, outPath, ascii "--deflection", ascii "nan"] mockSt).exit = .ok 0 ∧
    (main (mockKernel mockOk) mockFloatOps mockStrtod
        [progName, inPath, outPath, ascii "--deflection", ascii "nan"] mockSt).st.trace.filter
        Event.isMesh =
      [.BRepMesh_IncrementalMesh 1 Double.nan true
        (mockFloatOps.mul Double.lit_20 (mockFloatOps.div Double.lit_pi Double.lit_180))
        false (.ok ())] :=
  ⟨by decide, by decide, by decide, by decide, rfl⟩

/-- A double that is not less than or equal to 0 is greater than 0 or a NaN. -/
theorem Double.pos_or_nan_of_not_le (v : Double) (h : Double.le v Double.zero = false) :
    Double.lt Double.zero v = true ∨ v = Double.nan := by
  cases v with
  | fin q =>
    left
    have hq : 0 < q := by
      simpa [Double.le, Double.zero] using h
    simp [Double.lt, Double.le, Double.eq, Double.zero, hq.le, hq.ne]
  | negZero => simp [Double.le, Double.zero] at h
  | posInf => left; simp [Double.lt, Double.le, Double.eq, Double.zero]
  | negInf => simp [Double.le, Double.zero] at h
  | nan => right; rfl

/-- What the option loop leaves in the three numeric fields: the value the
field had, or a value for which the test `v <= 0.0` is false. -/
theorem main_options_numeric (strtod : List Byte → Double × Nat) :
    ∀ (n : Nat) (l : List (List Byte)), l.length ≤ n → ∀ opt opt' : stp2stl_options,
      main_options strtod l opt = some opt' →
      (opt'.linear_deflection = opt.linear_deflection ∨
        Double.le opt'.linear_deflection Double.zero = false) ∧
      (opt'.angular_deflection_deg = opt.angular_deflection_deg ∨
        Double.le opt'.angular_deflection_deg Double.zero = false) ∧
      (opt'.scale = opt.scale ∨ Double.le opt'.scale Double.zero = false) := by
  intro n
  induction n using Nat.strong_induction_on with
  | _ n ih =>
    intro l hl opt opt'
    match l, hl with
    | [], _ =>
      intro h
      simp only [main_options, Option.some.injEq] at h
      subst h
      exact ⟨Or.inl rfl, Or.inl rfl, Or.inl rfl⟩
    | [a], _ =>
      rcases streq_cases a with c | c | c | c | c | c | c | c | c <;>
        obtain ⟨c0, c1, c2, c3, c4, c5, c6, c7⟩ := c <;>
        simp only [main_options, c0, c1, c2, c3, c4, c5, c6, c7] <;>
        intro h <;> simp at h <;> subst h <;> exact ⟨Or.inl rfl, Or.inl rfl, Or.inl rfl⟩
    | a :: s :: rest, hl =>
      have ih1 := ih (n - 1) (by simp at hl; omega) (s :: rest) (by simp at hl ⊢; omega)
      have ih2 := ih (n - 1) (by simp at hl; omega) rest (by simp at hl ⊢; omega)
      cases hle : Double.le (parse_double strtod (some s) Double.zero).2 Double.zero <;>
      cases hp : decide ((parse_double strtod (some s) Double.zero).1 = 0) <;>
      rcases streq_cases a with c | c | c | c | c | c | c | c | c <;>
        obtain ⟨c0, c1, c2, c3, c4, c5, c6, c7⟩ := c <;>
        simp only [main_options, c0, c1, c2, c3, c4, c5, c6, c7, hle, hp] <;>
        intro h <;>
        first
        | (simp at h; done)
        | (have h1 := ih1 _ _ h; simpa using h1)
        | (have h2 := ih2 _ _ h; simp only at h2
           first
           | exact ⟨Or.inr (h2.1.elim (fun e => e ▸ hle) id), h2.2.1, h2.2.2⟩
           | exact ⟨h2.1, Or.inr (h2.2.1.elim (fun e => e ▸ hle) id), h2.2.2⟩
           | exact ⟨h2.1, h2.2.1, Or.inr (h2.2.2.elim (fun e => e ▸ hle) id)⟩)

/-- What holds of the record that `main` passes to the conversion: each of the
three numeric fields is greater than 0 or a NaN. -/
theorem main_numeric_fields {T : KTypes} (K : Kernel T) (fp : FloatOps)
    (strtod : List Byte → Double × Nat) (argv : List (List Byte)) (st : St T)
    (i o : List Byte) (opt : stp2stl_options)
    (h : (main K fp strtod argv st).called = some (i, o, opt)) :
    (Double.lt Double.zero opt.linear_deflection = true ∨ opt.linear_deflection = Double.nan) ∧
    (Double.lt Double.zero opt.angular_deflection_deg = true ∨
      opt.angular_deflection_deg = Double.nan) ∧
    (Double.lt Double.zero opt.scale = true ∨ opt.scale = Double.nan) := by
  have key : main_options strtod (argv.drop 3) (stp2stl_default_options_assign default) =
      some opt := by
    unfold main at h
    split at h
    · cases h
    · split at h
      · cases h
      · split at h
        · rename_i hd inp out rst hlen hhelp
          cases hm : main_options strtod rst (stp2stl_default_options_assign default) with
          | none => simp [hm] at h
          | some opt1 =>
            simp only [hm, Option.some.injEq, Prod.mk.injEq] at h
            simpa [hm] using h.2.2
        · cases h
  have hn := main_options_numeric strtod _ _ le_rfl _ _ key
  have d1 : Double.lt Double.zero Double.lit_0_001 = true := by decide!
  have d2 : Double.lt Double.zero Double.lit_20 = true := by decide!
  have d3 : Double.lt Double.zero Double.one = true := by decide!
  refine ⟨?_, ?_, ?_⟩
  · rcases hn.1 with e | e
    · left; rw [e]; exact d1
    · exact Double.pos_or_nan_of_not_le _ e
  · rcases hn.2.1 with e | e
    · left; rw [e]; exact d2
    · exact Double.pos_or_nan_of_not_le _ e
  · rcases hn.2.2 with e | e
    · left; rw [e]; exact d3
    · exact Double.pos_or_nan_of_not_le _ e

end Stp2stl
